import Mathlib

/-!
Shallow embedding of the simplepush client library
(src/simplepush/__init__.py) and verification of its specification.

Conventions:
* Python byte strings are `List Nat` with every entry `< 256`.
* Python `Optional[str]` arguments are `Option String`; Python truthiness of
  an optional string (`if salt:`) is `pyTruthy`: `None` and `""` are falsy.
* Randomness (`os.urandom`) and wall-clock time (`time.time()`) are passed in
  as explicit parameters / traces.
* Exceptions become explicit error values (`Except` / sum-like results).
-/

namespace Simplepush

/-- Python truthiness of an optional string: `None` and `""` are falsy. -/
def pyTruthy : Option String → Bool
  | none => false
  | some s => s ≠ ""

/-- Module constant `SALT = '1789F0B8C4A051E5'` (module constant, legacy fallback salt). -/
def SALT : String := "1789F0B8C4A051E5"

/-! ## Action validation (`_check_actions`) -/

/-- An element of the `actions` list: either a plain string or a mapping
(Python dict), modelled as an association list of string keys/values. -/
inductive ActionEl where
  | str (s : String)
  | map (entries : List (String × String))
deriving DecidableEq, Repr

/-- The `actions` argument as received by `_check_actions`: `None`,
a non-list value, or a list of elements. -/
inductive ActionsArg where
  | noneArg
  | notAList
  | list (l : List ActionEl)
deriving DecidableEq, Repr

/-- Errors `_check_actions` can raise: `ValueError` with a message
(the spec's MalformedActions), or Python `AttributeError` (raised when
`el.keys()` is evaluated on a non-dict such as a `str`). -/
inductive CheckErr where
  | malformed (msg : String)
  | attrError
deriving DecidableEq, Repr

/-- Membership test for a mapping key, as in `'name' in el.keys()`. -/
def hasKey (m : List (String × String)) (k : String) : Bool :=
  m.any (fun p => p.1 == k)

/-- Embedding of `isinstance(el, str)`. -/
def isStrEl : ActionEl → Bool
  | .str _ => true
  | .map _ => false

/-- Is the element a mapping (a Python dict)? -/
def isMapEl : ActionEl → Bool
  | .str _ => false
  | .map _ => true

/-- Is the element a mapping containing both a `name` and a `url` key? -/
def isGoodMap : ActionEl → Bool
  | .str _ => false
  | .map m => hasKey m "name" && hasKey m "url"

/-- Does the result carry the ValueError (MalformedActions) failure? -/
def isMalformedErr : Except CheckErr Unit → Bool
  | .error (.malformed _) => true
  | _ => false

/-- Embedding of the scan performed by `all('name' in el.keys() and 'url' in el.keys() for el in actions)`:
Python evaluates the generator left to right; a `str` element raises
`AttributeError` at `el.keys()`, a mapping missing a key makes `all` return
`False` (and then `ValueError("Get actions malformed")` is raised). -/
def scanMapElems : List ActionEl → Except CheckErr Unit
  | [] => .ok ()
  | .str _ :: _ => .error .attrError
  | .map m :: rest =>
      if hasKey m "name" && hasKey m "url" then scanMapElems rest
      else .error (.malformed "Get actions malformed")

/-- Embedding of `_check_actions(actions)`: raise error if actions cannot be parsed. -/
def check_actions : ActionsArg → Except CheckErr Unit
  | .notAList => .error (.malformed "Actions malformed")
  | .noneArg => .ok ()
  | .list [] => .ok ()
  | .list (first :: rest) =>
      match first with
      | .str _ =>
          if (first :: rest).all isStrEl then
            .ok ()
          else .error (.malformed "Feedback actions malformed")
      | .map _ => scanMapElems (first :: rest)

/-! ## Response handling (`_handle_response` / `_handle_response_aio`) -/

/-- The service response envelope `{status, message?, feedbackId?}`. -/
structure Envelope where
  status : String
  message : Option String
  feedbackId : Option String
deriving DecidableEq, Repr

/-- Errors raised while handling the response. `keyError` models the Python
`KeyError` raised by `response.json()['message']` when the key is absent. -/
inductive RespErr where
  | badRequest
  | unknownError
  | keyError
deriving DecidableEq, Repr

/-- Outcome of `_handle_response` when no exception is raised: either the
feedback endpoint is polled with the given feedback id, or nothing happens. -/
inductive RespOk where
  | poll (feedbackId : String)
  | done
deriving DecidableEq, Repr

/-- Embedding of `_handle_response` and `_handle_response_aio`: raise `BadRequest` when status is `'BadRequest'`
and message is `'Title or message too long'` (looking up `'message'` raises
`KeyError` when absent, since Python's `and` already found the first conjunct
true); raise `UnknownError` for any other non-`'OK'` status; on `'OK'`, poll
the feedback endpoint when a `feedbackId` is present and a callback given. -/
def handle_response (env : Envelope) (hasCallback : Bool) : Except RespErr RespOk :=
  if env.status == "BadRequest" then
      match env.message with
      | none => .error .keyError
      | some m =>
          if m == "Title or message too long" then .error .badRequest
          else .error .unknownError
  else
      if env.status != "OK" then .error .unknownError
      else
        match env.feedbackId with
        | some fid => if hasCallback then .ok (.poll fid) else .ok .done
        | none => .ok .done

/-- Does the result carry the UnknownError failure? -/
def isUnknownErr : Except RespErr RespOk → Bool
  | .error .unknownError => true
  | _ => false

/-! ## Feedback polling (`_query_feedback_endpoint`)

The loop performs one HTTP GET per iteration and reads the wall clock when a
timeout is configured; we model the environment as a finite trace of
`(response, now)` pairs, one per iteration. Sleeps are recorded in a list. -/

/-- One JSON response of the feedback endpoint together with the HTTP-level
success flag `resp.ok`. Nullable JSON fields are `Option`. -/
structure FeedbackResp where
  ok : Bool
  success : Bool
  action_selected : Option String
  action_selected_at : Option Nat
  action_delivered_at : Option Nat
deriving DecidableEq, Repr

/-- A pending poll iteration: HTTP ok, `success` true, `action_selected` falsy. -/
def isPending (r : FeedbackResp) : Bool :=
  r.ok && r.success && !(pyTruthy r.action_selected)

/-- Arguments of one invocation of the caller-supplied feedback callback:
`callback(json['action_selected'], json['action_selected_at'], json['action_delivered_at'], feedback_id)`. -/
structure CallbackCall where
  selected : Option String
  selectedAt : Option Nat
  deliveredAt : Option Nat
  feedbackId : String
deriving DecidableEq, Repr

/-- Terminal outcome of the polling loop. `exhausted` means the modelled
trace ended while the loop would have kept polling. -/
inductive PollResult where
  | resolved
  | timedOut (msg : String)
  | failed (msg : String)
  | exhausted
deriving DecidableEq, Repr

/-- Embedding of the `while not stop` loop body of `_query_feedback_endpoint`.
`n` is the iteration counter — the source initialises it to 0 and never
increments it. Each trace element supplies the iteration's JSON response and
the value `time.time()` would return at the timeout check. Returns the
outcome, the callback invocations, and the list of sleep durations. -/
def pollLoop (feedback_id : String) (timeout : Nat) (start : Nat) (n : Nat) :
    List (FeedbackResp × Nat) → PollResult × List CallbackCall × List Nat
  | [] => (.exhausted, [], [])
  | (resp, now) :: rest =>
      if resp.ok && resp.success then
        if pyTruthy resp.action_selected then
          (.resolved,
           [⟨resp.action_selected, resp.action_selected_at, resp.action_delivered_at, feedback_id⟩],
           [])
        else
          if timeout != 0 && decide (now > start + timeout) then
            (.timedOut ("Feedback Action ID: " ++ feedback_id), [], [])
          else
            let s := if n < 60 then 1 else if n < 260 then 3 else 5
            let r := pollLoop feedback_id timeout start n rest
            (r.1, r.2.1, s :: r.2.2)
      else (.failed "Failed to reach feedback API.", [], [])

/-- Embedding of `_query_feedback_endpoint(feedback_id, callback, timeout)`:
`n = 0`, `start = time.time()`, then the polling loop. -/
def query_feedback_endpoint (feedback_id : String) (timeout : Nat) (start : Nat)
    (iters : List (FeedbackResp × Nat)) : PollResult × List CallbackCall × List Nat :=
  pollLoop feedback_id timeout start 0 iters

/-! ## SHA-1 (`hashlib.sha1`) and key derivation (`_generate_encryption_key`) -/

/-- Reduction modulo 2^32 (32-bit word arithmetic). -/
def w32 (x : Nat) : Nat := x % 4294967296

/-- Left rotation of a 32-bit word by `n` (for `x < 2^32`, `n ≤ 32`). -/
def rotl32 (x n : Nat) : Nat := ((x <<< n) % 4294967296) ||| (x >>> (32 - n))

/-- Big-endian byte serialisation of `n` on `k` bytes. -/
def beBytes : Nat → Nat → List Nat
  | 0, _ => []
  | k + 1, n => ((n >>> (8 * k)) % 256) :: beBytes k n

/-- SHA-1 message padding: append `0x80`, zero bytes until the length is
56 mod 64, then the bit length on 8 big-endian bytes. -/
def sha1pad (msg : List Nat) : List Nat :=
  let z := (119 - msg.length % 64) % 64
  msg ++ 128 :: List.replicate z 0 ++ beBytes 8 (8 * msg.length)

/-- Big-endian 32-bit words from a byte list (groups of 4). -/
def toWords : List Nat → List Nat
  | b0 :: b1 :: b2 :: b3 :: rest =>
      (((b0 * 256 + b1) * 256 + b2) * 256 + b3) :: toWords rest
  | _ => []

/-- Split a list into chunks of `k` elements (`k > 0`). -/
def chunksOf (k : Nat) (l : List α) : List (List α) :=
  if h : k = 0 ∨ l.isEmpty then [] else l.take k :: chunksOf k (l.drop k)
termination_by l.length
decreasing_by
  push_neg at h
  simp only [List.length_drop]
  refine Nat.sub_lt (List.length_pos.mpr ?_) (Nat.pos_of_ne_zero h.1)
  simpa using h.2

/-- SHA-1 message-schedule extension: append `k` further words, each
`rotl1` of the xor of the words 3, 8, 14 and 16 places back. -/
def sha1Extend (ws : List Nat) : Nat → List Nat
  | 0 => ws
  | k + 1 =>
      let i := ws.length
      let nw := rotl32 ((ws.getD (i - 3) 0) ^^^ (ws.getD (i - 8) 0) ^^^
                        (ws.getD (i - 14) 0) ^^^ (ws.getD (i - 16) 0)) 1
      sha1Extend (ws ++ [nw]) k

/-- The SHA-1 working state (a, b, c, d, e). -/
structure Sha1State where
  a : Nat
  b : Nat
  c : Nat
  d : Nat
  e : Nat
deriving DecidableEq, Repr

/-- One SHA-1 round: round index `i`, schedule word `wi`. -/
def sha1Round (i : Nat) (st : Sha1State) (wi : Nat) : Sha1State :=
  let f := if i < 20 then (st.b &&& st.c) ||| ((st.b ^^^ 4294967295) &&& st.d)
           else if i < 40 then st.b ^^^ st.c ^^^ st.d
           else if i < 60 then (st.b &&& st.c) ||| (st.b &&& st.d) ||| (st.c &&& st.d)
           else st.b ^^^ st.c ^^^ st.d
  let k := if i < 20 then 1518500249
           else if i < 40 then 1859775393
           else if i < 60 then 2400959708
           else 3395469782
  let temp := w32 (rotl32 st.a 5 + f + st.e + k + wi)
  ⟨temp, st.a, rotl32 st.b 30, st.c, st.d⟩

/-- Run the 80 SHA-1 rounds over the word schedule. -/
def sha1RoundsFrom (i : Nat) (st : Sha1State) : List Nat → Sha1State
  | [] => st
  | wi :: rest => sha1RoundsFrom (i + 1) (sha1Round i st wi) rest

/-- Process one 512-bit chunk: extend the schedule, run the rounds, add. -/
def sha1ProcessChunk (st : Sha1State) (chunk : List Nat) : Sha1State :=
  let ws := sha1Extend (toWords chunk) 64
  let r := sha1RoundsFrom 0 st ws
  ⟨w32 (st.a + r.a), w32 (st.b + r.b), w32 (st.c + r.c), w32 (st.d + r.d), w32 (st.e + r.e)⟩

/-- SHA-1 digest of a byte list: 20 bytes. -/
def sha1 (msg : List Nat) : List Nat :=
  let st := (chunksOf 64 (sha1pad msg)).foldl sha1ProcessChunk
    ⟨1732584193, 4023233417, 2562383102, 271733878, 3285377520⟩
  beBytes 4 st.a ++ beBytes 4 st.b ++ beBytes 4 st.c ++ beBytes 4 st.d ++ beBytes 4 st.e

/-- Lowercase hexadecimal digit. -/
def hexDigit (n : Nat) : Char :=
  (("0123456789abcdef".data).getD n '0')

/-- Two lowercase hex characters of one byte (`b < 256`). -/
def byteHexLower (b : Nat) : List Char := [hexDigit (b / 16), hexDigit (b % 16)]

/-- Hex digest characters (the Python `hexdigest()` string) of a byte list. -/
def hexChars (bs : List Nat) : List Char := bs.flatMap byteHexLower

/-- SHA-1 hex digest (40 lowercase hex characters) of a byte list. -/
def sha1hex (msg : List Nat) : List Char := hexChars (sha1 msg)

/-- Value of a hexadecimal digit character (0-9, a-f, A-F). -/
def hexVal (c : Char) : Nat :=
  if c.toNat ≥ 97 then c.toNat - 87
  else if c.toNat ≥ 65 then c.toNat - 55
  else c.toNat - 48

/-- Embedding of `bytearray.fromhex`: decode pairs of hex characters. -/
def hexDecode : List Char → List Nat
  | c1 :: c2 :: rest => (16 * hexVal c1 + hexVal c2) :: hexDecode rest
  | _ => []

/-- UTF-8 encoding of one character (standard 1-4 byte encoding). -/
def utf8EncodeChar (c : Char) : List Nat :=
  let n := c.toNat
  if n < 128 then [n]
  else if n < 2048 then [192 ||| (n >>> 6), 128 ||| (n &&& 63)]
  else if n < 65536 then
    [224 ||| (n >>> 12), 128 ||| ((n >>> 6) &&& 63), 128 ||| (n &&& 63)]
  else
    [240 ||| (n >>> 18), 128 ||| ((n >>> 12) &&& 63),
     128 ||| ((n >>> 6) &&& 63), 128 ||| (n &&& 63)]

/-- UTF-8 encoding of a string (Python `str.encode('utf-8')`). -/
def utf8Encode (s : String) : List Nat := s.data.flatMap utf8EncodeChar

/-- Embedding of `_generate_encryption_key(password, salt=None)`:
concatenate the password with the salt when the salt is Python-truthy,
else with the module constant `SALT`; SHA-1 the UTF-8 bytes; keep the first
32 hex characters of the hex digest; decode them as bytes. -/
def generate_encryption_key (password : String) (salt : Option String) : List Nat :=
  let salted_password :=
    if pyTruthy salt then password ++ salt.getD "" else password ++ SALT
  let hex_str := (sha1hex (utf8Encode salted_password)).take 32
  hexDecode hex_str

/-! ## AES-128 (the `cryptography` library's `algorithms.AES` with `modes.CBC`)

The source delegates the block cipher to the `cryptography` package; we embed
AES-128 concretely (FIPS-197). Bytes are `Nat` below 256; the 16-byte state is
a structure with one field per byte, in the standard column-major order
(byte `i` sits at row `i mod 4`, column `i / 4`).
-/

/-- The AES S-box (FIPS-197, Fig. 7), as used by `algorithms.AES`. -/
def sbox : List Nat :=
  [99, 124, 119, 123, 242, 107, 111, 197, 48, 1, 103, 43, 254, 215, 171, 118,
   202, 130, 201, 125, 250, 89, 71, 240, 173, 212, 162, 175, 156, 164, 114, 192,
   183, 253, 147, 38, 54, 63, 247, 204, 52, 165, 229, 241, 113, 216, 49, 21,
   4, 199, 35, 195, 24, 150, 5, 154, 7, 18, 128, 226, 235, 39, 178, 117,
   9, 131, 44, 26, 27, 110, 90, 160, 82, 59, 214, 179, 41, 227, 47, 132,
   83, 209, 0, 237, 32, 252, 177, 91, 106, 203, 190, 57, 74, 76, 88, 207,
   208, 239, 170, 251, 67, 77, 51, 133, 69, 249, 2, 127, 80, 60, 159, 168,
   81, 163, 64, 143, 146, 157, 56, 245, 188, 182, 218, 33, 16, 255, 243, 210,
   205, 12, 19, 236, 95, 151, 68, 23, 196, 167, 126, 61, 100, 93, 25, 115,
   96, 129, 79, 220, 34, 42, 144, 136, 70, 238, 184, 20, 222, 94, 11, 219,
   224, 50, 58, 10, 73, 6, 36, 92, 194, 211, 172, 98, 145, 149, 228, 121,
   231, 200, 55, 109, 141, 213, 78, 169, 108, 86, 244, 234, 101, 122, 174, 8,
   186, 120, 37, 46, 28, 166, 180, 198, 232, 221, 116, 31, 75, 189, 139, 138,
   112, 62, 181, 102, 72, 3, 246, 14, 97, 53, 87, 185, 134, 193, 29, 158,
   225, 248, 152, 17, 105, 217, 142, 148, 155, 30, 135, 233, 206, 85, 40, 223,
   140, 161, 137, 13, 191, 230, 66, 104, 65, 153, 45, 15, 176, 84, 187, 22]

/-- The inverse AES S-box (FIPS-197, Fig. 14). -/
def invSbox : List Nat :=
  [82, 9, 106, 213, 48, 54, 165, 56, 191, 64, 163, 158, 129, 243, 215, 251,
   124, 227, 57, 130, 155, 47, 255, 135, 52, 142, 67, 68, 196, 222, 233, 203,
   84, 123, 148, 50, 166, 194, 35, 61, 238, 76, 149, 11, 66, 250, 195, 78,
   8, 46, 161, 102, 40, 217, 36, 178, 118, 91, 162, 73, 109, 139, 209, 37,
   114, 248, 246, 100, 134, 104, 152, 22, 212, 164, 92, 204, 93, 101, 182, 146,
   108, 112, 72, 80, 253, 237, 185, 218, 94, 21, 70, 87, 167, 141, 157, 132,
   144, 216, 171, 0, 140, 188, 211, 10, 247, 228, 88, 5, 184, 179, 69, 6,
   208, 44, 30, 143, 202, 63, 15, 2, 193, 175, 189, 3, 1, 19, 138, 107,
   58, 145, 17, 65, 79, 103, 220, 234, 151, 242, 207, 206, 240, 180, 230, 115,
   150, 172, 116, 34, 231, 173, 53, 133, 226, 249, 55, 232, 28, 117, 223, 110,
   71, 241, 26, 113, 29, 41, 197, 137, 111, 183, 98, 14, 170, 24, 190, 27,
   252, 86, 62, 75, 198, 210, 121, 32, 154, 219, 192, 254, 120, 205, 90, 244,
   31, 221, 168, 51, 136, 7, 199, 49, 177, 18, 16, 89, 39, 128, 236, 95,
   96, 81, 127, 169, 25, 181, 74, 13, 45, 229, 122, 159, 147, 201, 156, 239,
   160, 224, 59, 77, 174, 42, 245, 176, 200, 235, 187, 60, 131, 83, 153, 97,
   23, 43, 4, 126, 186, 119, 214, 38, 225, 105, 20, 99, 85, 33, 12, 125]

/-- S-box lookup. -/
def sboxAt (x : Nat) : Nat := sbox.getD x 0

/-- Inverse S-box lookup. -/
def invSboxAt (x : Nat) : Nat := invSbox.getD x 0

/-- Multiplication by x in GF(2^8) modulo the AES polynomial 0x11B. -/
def xtime (x : Nat) : Nat := if x < 128 then 2 * x else (2 * x) ^^^ 283

/-- Multiplication by 3 in GF(2^8). -/
def mul3 (x : Nat) : Nat := xtime x ^^^ x

/-- Multiplication by 9 in GF(2^8). -/
def mul9 (x : Nat) : Nat := xtime (xtime (xtime x)) ^^^ x

/-- Multiplication by 11 in GF(2^8). -/
def mul11 (x : Nat) : Nat := xtime (xtime (xtime x)) ^^^ xtime x ^^^ x

/-- Multiplication by 13 in GF(2^8). -/
def mul13 (x : Nat) : Nat := xtime (xtime (xtime x)) ^^^ xtime (xtime x) ^^^ x

/-- Multiplication by 14 in GF(2^8). -/
def mul14 (x : Nat) : Nat := xtime (xtime (xtime x)) ^^^ xtime (xtime x) ^^^ xtime x

/-- The AES state: 16 bytes, `si` is input byte `i` (column-major). -/
structure AESState where
  s0 : Nat
  s1 : Nat
  s2 : Nat
  s3 : Nat
  s4 : Nat
  s5 : Nat
  s6 : Nat
  s7 : Nat
  s8 : Nat
  s9 : Nat
  s10 : Nat
  s11 : Nat
  s12 : Nat
  s13 : Nat
  s14 : Nat
  s15 : Nat
deriving DecidableEq, Repr

/-- Every state byte is below 256. -/
def AESState.Valid (st : AESState) : Prop :=
  st.s0 < 256 ∧ st.s1 < 256 ∧ st.s2 < 256 ∧ st.s3 < 256 ∧
  st.s4 < 256 ∧ st.s5 < 256 ∧ st.s6 < 256 ∧ st.s7 < 256 ∧
  st.s8 < 256 ∧ st.s9 < 256 ∧ st.s10 < 256 ∧ st.s11 < 256 ∧
  st.s12 < 256 ∧ st.s13 < 256 ∧ st.s14 < 256 ∧ st.s15 < 256

instance (st : AESState) : Decidable st.Valid := by
  unfold AESState.Valid; infer_instance

/-- AddRoundKey: bytewise xor with the round key. -/
def addRoundKey (k st : AESState) : AESState :=
  ⟨st.s0 ^^^ k.s0, st.s1 ^^^ k.s1, st.s2 ^^^ k.s2, st.s3 ^^^ k.s3,
   st.s4 ^^^ k.s4, st.s5 ^^^ k.s5, st.s6 ^^^ k.s6, st.s7 ^^^ k.s7,
   st.s8 ^^^ k.s8, st.s9 ^^^ k.s9, st.s10 ^^^ k.s10, st.s11 ^^^ k.s11,
   st.s12 ^^^ k.s12, st.s13 ^^^ k.s13, st.s14 ^^^ k.s14, st.s15 ^^^ k.s15⟩

/-- SubBytes: S-box on every byte. -/
def subBytes (st : AESState) : AESState :=
  ⟨sboxAt st.s0, sboxAt st.s1, sboxAt st.s2, sboxAt st.s3,
   sboxAt st.s4, sboxAt st.s5, sboxAt st.s6, sboxAt st.s7,
   sboxAt st.s8, sboxAt st.s9, sboxAt st.s10, sboxAt st.s11,
   sboxAt st.s12, sboxAt st.s13, sboxAt st.s14, sboxAt st.s15⟩

/-- InvSubBytes: inverse S-box on every byte. -/
def invSubBytes (st : AESState) : AESState :=
  ⟨invSboxAt st.s0, invSboxAt st.s1, invSboxAt st.s2, invSboxAt st.s3,
   invSboxAt st.s4, invSboxAt st.s5, invSboxAt st.s6, invSboxAt st.s7,
   invSboxAt st.s8, invSboxAt st.s9, invSboxAt st.s10, invSboxAt st.s11,
   invSboxAt st.s12, invSboxAt st.s13, invSboxAt st.s14, invSboxAt st.s15⟩

/-- ShiftRows: row `r` rotated left by `r` (column-major flat indices). -/
def shiftRows (st : AESState) : AESState :=
  ⟨st.s0, st.s5, st.s10, st.s15,
   st.s4, st.s9, st.s14, st.s3,
   st.s8, st.s13, st.s2, st.s7,
   st.s12, st.s1, st.s6, st.s11⟩

/-- InvShiftRows: row `r` rotated right by `r`. -/
def invShiftRows (st : AESState) : AESState :=
  ⟨st.s0, st.s13, st.s10, st.s7,
   st.s4, st.s1, st.s14, st.s11,
   st.s8, st.s5, st.s2, st.s15,
   st.s12, st.s9, st.s6, st.s3⟩

/-- MixColumns on one column. -/
def mixCol (a b c d : Nat) : Nat × Nat × Nat × Nat :=
  (xtime a ^^^ mul3 b ^^^ c ^^^ d,
   a ^^^ xtime b ^^^ mul3 c ^^^ d,
   a ^^^ b ^^^ xtime c ^^^ mul3 d,
   mul3 a ^^^ b ^^^ c ^^^ xtime d)

/-- InvMixColumns on one column. -/
def invMixCol (a b c d : Nat) : Nat × Nat × Nat × Nat :=
  (mul14 a ^^^ mul11 b ^^^ mul13 c ^^^ mul9 d,
   mul9 a ^^^ mul14 b ^^^ mul11 c ^^^ mul13 d,
   mul13 a ^^^ mul9 b ^^^ mul14 c ^^^ mul11 d,
   mul11 a ^^^ mul13 b ^^^ mul9 c ^^^ mul14 d)

/-- MixColumns on the state (four columns). -/
def mixColumns (st : AESState) : AESState :=
  let c0 := mixCol st.s0 st.s1 st.s2 st.s3
  let c1 := mixCol st.s4 st.s5 st.s6 st.s7
  let c2 := mixCol st.s8 st.s9 st.s10 st.s11
  let c3 := mixCol st.s12 st.s13 st.s14 st.s15
  ⟨c0.1, c0.2.1, c0.2.2.1, c0.2.2.2,
   c1.1, c1.2.1, c1.2.2.1, c1.2.2.2,
   c2.1, c2.2.1, c2.2.2.1, c2.2.2.2,
   c3.1, c3.2.1, c3.2.2.1, c3.2.2.2⟩

/-- InvMixColumns on the state. -/
def invMixColumns (st : AESState) : AESState :=
  let c0 := invMixCol st.s0 st.s1 st.s2 st.s3
  let c1 := invMixCol st.s4 st.s5 st.s6 st.s7
  let c2 := invMixCol st.s8 st.s9 st.s10 st.s11
  let c3 := invMixCol st.s12 st.s13 st.s14 st.s15
  ⟨c0.1, c0.2.1, c0.2.2.1, c0.2.2.2,
   c1.1, c1.2.1, c1.2.2.1, c1.2.2.2,
   c2.1, c2.2.1, c2.2.2.1, c2.2.2.2,
   c3.1, c3.2.1, c3.2.2.1, c3.2.2.2⟩

/-- Componentwise xor on a column 4-tuple. -/
def txor (s t : Nat × Nat × Nat × Nat) : Nat × Nat × Nat × Nat :=
  (s.1 ^^^ t.1, s.2.1 ^^^ t.2.1, s.2.2.1 ^^^ t.2.2.1, s.2.2.2 ^^^ t.2.2.2)

/-- `mixCol` on a column 4-tuple. -/
def mixColT (t : Nat × Nat × Nat × Nat) : Nat × Nat × Nat × Nat :=
  mixCol t.1 t.2.1 t.2.2.1 t.2.2.2

/-- `invMixCol` on a column 4-tuple. -/
def invMixColT (t : Nat × Nat × Nat × Nat) : Nat × Nat × Nat × Nat :=
  invMixCol t.1 t.2.1 t.2.2.1 t.2.2.2

/-- A key-schedule word: four bytes. -/
def Word4 := Nat × Nat × Nat × Nat

/-- Every byte of a key-schedule word is below 256. -/
def WValid (w : Word4) : Prop :=
  w.1 < 256 ∧ w.2.1 < 256 ∧ w.2.2.1 < 256 ∧ w.2.2.2 < 256

/-- Bytewise xor of two words. -/
def xorWord (a b : Word4) : Word4 :=
  (a.1 ^^^ b.1, a.2.1 ^^^ b.2.1, a.2.2.1 ^^^ b.2.2.1, a.2.2.2 ^^^ b.2.2.2)

/-- S-box applied to every byte of a word. -/
def subWord (w : Word4) : Word4 := (sboxAt w.1, sboxAt w.2.1, sboxAt w.2.2.1, sboxAt w.2.2.2)

/-- Cyclic left rotation of a word by one byte. -/
def rotWord (w : Word4) : Word4 := (w.2.1, w.2.2.1, w.2.2.2, w.1)

/-- AES round constants. -/
def rcon : List Nat := [1, 2, 4, 8, 16, 32, 64, 128, 27, 54]

/-- Key-expansion step: extend the word list from index `i` for `fuel` steps. -/
def expandFrom (ws : List Word4) (i : Nat) : Nat → List Word4
  | 0 => ws
  | fuel + 1 =>
      let prev := ws.getD (i - 1) (0, 0, 0, 0)
      let w4 := ws.getD (i - 4) (0, 0, 0, 0)
      let nw :=
        if i % 4 == 0 then
          xorWord (xorWord w4 (subWord (rotWord prev))) (rcon.getD (i / 4 - 1) 0, 0, 0, 0)
        else xorWord w4 prev
      expandFrom (ws ++ [nw]) (i + 1) fuel

/-- AES-128 key schedule: 44 words from the 16 key bytes. -/
def keyWords (key : List Nat) : List Word4 :=
  expandFrom
    [(key.getD 0 0, key.getD 1 0, key.getD 2 0, key.getD 3 0),
     (key.getD 4 0, key.getD 5 0, key.getD 6 0, key.getD 7 0),
     (key.getD 8 0, key.getD 9 0, key.getD 10 0, key.getD 11 0),
     (key.getD 12 0, key.getD 13 0, key.getD 14 0, key.getD 15 0)] 4 40

/-- Round key `r` as a state (words fill the columns). -/
def roundKeyState (ws : List Word4) (r : Nat) : AESState :=
  let w0 := ws.getD (4 * r) (0, 0, 0, 0)
  let w1 := ws.getD (4 * r + 1) (0, 0, 0, 0)
  let w2 := ws.getD (4 * r + 2) (0, 0, 0, 0)
  let w3 := ws.getD (4 * r + 3) (0, 0, 0, 0)
  ⟨w0.1, w0.2.1, w0.2.2.1, w0.2.2.2,
   w1.1, w1.2.1, w1.2.2.1, w1.2.2.2,
   w2.1, w2.2.1, w2.2.2.1, w2.2.2.2,
   w3.1, w3.2.1, w3.2.2.1, w3.2.2.2⟩

/-- The 11 AES-128 round keys. -/
def roundKeys (key : List Nat) : List AESState :=
  (List.range 11).map (roundKeyState (keyWords key))

/-- The rounds after the initial AddRoundKey: each inner round key drives a
full round, the last round key the final round (no MixColumns). -/
def encRounds : List AESState → AESState → AESState
  | [], st => st
  | [k], st => addRoundKey k (shiftRows (subBytes st))
  | k :: k2 :: rest, st => encRounds (k2 :: rest) (addRoundKey k (mixColumns (shiftRows (subBytes st))))

/-- Inverse of `encRounds` on the same round-key list. -/
def invRounds : List AESState → AESState → AESState
  | [], st => st
  | [k], st => invSubBytes (invShiftRows (addRoundKey k st))
  | k :: k2 :: rest, st =>
      invSubBytes (invShiftRows (invMixColumns (addRoundKey k (invRounds (k2 :: rest) st))))

/-- AES block encryption given the expanded round keys. -/
def aesEncSt : List AESState → AESState → AESState
  | [], st => st
  | k0 :: rest, st => encRounds rest (addRoundKey k0 st)

/-- AES block decryption given the expanded round keys. -/
def aesDecSt : List AESState → AESState → AESState
  | [], st => st
  | k0 :: rest, st => addRoundKey k0 (invRounds rest st)

/-- AES-128 block encryption under a 16-byte key. -/
def aesEncBlock (key : List Nat) (st : AESState) : AESState := aesEncSt (roundKeys key) st

/-- AES-128 block decryption under a 16-byte key. -/
def aesDecBlock (key : List Nat) (st : AESState) : AESState := aesDecSt (roundKeys key) st

/-- A 16-byte list as a state. -/
def stateOfBytes (l : List Nat) : AESState :=
  ⟨l.getD 0 0, l.getD 1 0, l.getD 2 0, l.getD 3 0,
   l.getD 4 0, l.getD 5 0, l.getD 6 0, l.getD 7 0,
   l.getD 8 0, l.getD 9 0, l.getD 10 0, l.getD 11 0,
   l.getD 12 0, l.getD 13 0, l.getD 14 0, l.getD 15 0⟩

/-- The 16 bytes of a state. -/
def bytesOfState (st : AESState) : List Nat :=
  [st.s0, st.s1, st.s2, st.s3, st.s4, st.s5, st.s6, st.s7,
   st.s8, st.s9, st.s10, st.s11, st.s12, st.s13, st.s14, st.s15]

/-- CBC encryption over a list of plaintext states (`prev` starts as the iv). -/
def cbcEncSt (key : List Nat) (prev : AESState) : List AESState → List AESState
  | [] => []
  | p :: rest =>
      let c := aesEncBlock key (addRoundKey prev p)
      c :: cbcEncSt key c rest

/-- CBC decryption over a list of ciphertext states. -/
def cbcDecSt (key : List Nat) (prev : AESState) : List AESState → List AESState
  | [] => []
  | c :: rest => addRoundKey prev (aesDecBlock key c) :: cbcDecSt key c rest

/-- Byte list as a list of 16-byte states. -/
def bytesToStates (bs : List Nat) : List AESState := (chunksOf 16 bs).map stateOfBytes

/-- Flatten a list of states back to bytes. -/
def statesToBytes (sts : List AESState) : List Nat := sts.flatMap bytesOfState

/-- AES-128-CBC encryption of a (block-aligned) byte list. -/
def aesCbcEncryptBytes (key iv bs : List Nat) : List Nat :=
  statesToBytes (cbcEncSt key (stateOfBytes iv) (bytesToStates bs))

/-- AES-128-CBC decryption of a byte list. -/
def aesCbcDecryptBytes (key iv ct : List Nat) : List Nat :=
  statesToBytes (cbcDecSt key (stateOfBytes iv) (bytesToStates ct))

/-! ## PKCS#7 padding and URL-safe base64 -/

/-- PKCS#7 padding for 16-byte blocks (the `padding.PKCS7(128)` padder):
append `k` bytes of value `k` where `k = 16 - len mod 16` (1 to 16). -/
def pkcs7pad (bs : List Nat) : List Nat :=
  let k := 16 - bs.length % 16
  bs ++ List.replicate k k

/-- PKCS#7 unpadding: read the last byte `k`, check `1 ≤ k ≤ 16` and that the
last `k` bytes all equal `k`, and drop them. -/
def pkcs7unpad (bs : List Nat) : Option (List Nat) :=
  match bs.getLast? with
  | none => none
  | some k =>
      if 1 ≤ k ∧ k ≤ 16 ∧ k ≤ bs.length ∧ (bs.drop (bs.length - k)).all (· == k) then
        some (bs.take (bs.length - k))
      else none

/-- The URL-safe base64 alphabet used by `base64.urlsafe_b64encode`. -/
def b64Alphabet : List Char :=
  "ABCDEFGHIJKLMNOPQRSTUVWXYZabcdefghijklmnopqrstuvwxyz0123456789-_".data

/-- Character of a sextet. -/
def b64Char (n : Nat) : Char := b64Alphabet.getD n 'A'

/-- Position of a character in the base64 alphabet. -/
def sextetAux (c : Char) : List Char → Nat → Option Nat
  | [], _ => none
  | a :: rest, i => if a == c then some i else sextetAux c rest (i + 1)

/-- Sextet of a base64 character. -/
def sextetOf (c : Char) : Option Nat := sextetAux c b64Alphabet 0

/-- URL-safe base64 encoding (padding characters retained). -/
def b64Encode : List Nat → List Char
  | b0 :: b1 :: b2 :: rest =>
      b64Char (b0 / 4) :: b64Char (b0 % 4 * 16 + b1 / 16) ::
      b64Char (b1 % 16 * 4 + b2 / 64) :: b64Char (b2 % 64) :: b64Encode rest
  | [b0, b1] => [b64Char (b0 / 4), b64Char (b0 % 4 * 16 + b1 / 16), b64Char (b1 % 16 * 4), '=']
  | [b0] => [b64Char (b0 / 4), b64Char (b0 % 4 * 16), '=', '=']
  | [] => []

/-- URL-safe base64 decoding (inverse of `b64Encode`). -/
def b64Decode : List Char → Option (List Nat)
  | [] => some []
  | c0 :: c1 :: c2 :: c3 :: rest => do
      let s0 ← sextetOf c0
      let s1 ← sextetOf c1
      if c2 = '=' then
        if c3 = '=' ∧ rest = [] then some [s0 * 4 + s1 / 16] else none
      else do
        let s2 ← sextetOf c2
        if c3 = '=' then
          if rest = [] then some [s0 * 4 + s1 / 16, s1 % 16 * 16 + s2 / 4] else none
        else do
          let s3 ← sextetOf c3
          let tail ← b64Decode rest
          some ((s0 * 4 + s1 / 16) :: (s1 % 16 * 16 + s2 / 4) :: (s2 % 4 * 64 + s3) :: tail)
  | _ => none

/-! ## Encryption of a payload field (`_encrypt`) -/

/-- Core of `_encrypt` on byte level: PKCS#7-pad, AES-128-CBC encrypt,
URL-safe base64 encode. -/
def encryptBytes (key iv data : List Nat) : List Char :=
  b64Encode (aesCbcEncryptBytes key iv (pkcs7pad data))

/-- Embedding of `_encrypt(encryption_key, iv, data)`: pad the UTF-8 encoding
of `data`, AES-128-CBC encrypt, base64 URL-safe encode, decode as ascii. -/
def encrypt (key iv : List Nat) (data : String) : String :=
  String.mk (encryptBytes key iv (utf8Encode data))

/-- Inverse pipeline as worded by the specification: URL-safe base64 decode,
AES-128-CBC decrypt under the same key and iv, then remove the PKCS#7
padding. (The repository has no decryption code; this is the spec's
round-trip construction.) -/
def decryptPipeline (key iv : List Nat) (ct : String) : Option (List Nat) := do
  let bs ← b64Decode ct.data
  pkcs7unpad (aesCbcDecryptBytes key iv bs)

/-! ## Payload construction (`_generate_payload`) -/

/-- A JSON value stored in the payload: a string or the actions list. -/
inductive PVal where
  | s (v : String)
  | acts (l : List ActionEl)
deriving DecidableEq, Repr

/-- Embedding of `_generate_payload(key, title, message, event, actions, password, salt)`.
The 16 random bytes drawn by `_generate_iv()` are the explicit `iv` argument.
The payload dict is an association list in insertion order (all keys
written at most once). -/
def generate_payload (key : String) (title : Option String) (message : String)
    (event : Option String) (actions : Option (List ActionEl))
    (password : Option String) (salt : Option String) (iv : List Nat) :
    List (String × PVal) :=
  let payload := [("key", PVal.s key)]
  let payload :=
    if !pyTruthy password then
      let payload := payload ++ [("msg", PVal.s message)]
      let payload :=
        if pyTruthy title then payload ++ [("title", PVal.s (title.getD ""))] else payload
      if pyTruthy event then payload ++ [("event", PVal.s (event.getD ""))] else payload
    else
      let encryption_key := generate_encryption_key (password.getD "") salt
      let iv_hex := String.mk ((hexChars iv).map Char.toUpper)
      let payload := payload ++ [("encrypted", PVal.s "true"), ("iv", PVal.s iv_hex)]
      let payload :=
        if pyTruthy title then
          payload ++ [("title", PVal.s (encrypt encryption_key iv (title.getD "")))]
        else payload
      let payload :=
        if pyTruthy event then payload ++ [("event", PVal.s (event.getD ""))] else payload
      payload ++ [("msg", PVal.s (encrypt encryption_key iv message))]
  match actions with
  | some l => if l.isEmpty then payload else payload ++ [("actions", PVal.acts l)]
  | none => payload

/-! ## Byte-level lemmas -/

theorem byte_xor_lt {x y : Nat} (hx : x < 256) (hy : y < 256) : x ^^^ y < 256 := by
  have h : (256 : Nat) = 2 ^ 8 := by norm_num
  rw [h] at hx hy ⊢
  exact Nat.xor_lt_two_pow hx hy

theorem getD_lt_of_all {l : List Nat} {d : Nat} (hl : ∀ x ∈ l, x < 256) (hd : d < 256)
    (i : Nat) : l.getD i d < 256 := by
  induction l generalizing i with
  | nil => simpa [List.getD]
  | cons a t ih =>
      cases i with
      | zero => exact hl a (by simp)
      | succ j =>
          simp only [List.getD_cons_succ]
          exact ih (fun x hx => hl x (by simp [hx])) j

set_option maxRecDepth 10000 in
theorem sboxAt_invSboxAt (x : Nat) (hx : x < 256) : invSboxAt (sboxAt x) = x := by
  revert x hx; decide

set_option maxRecDepth 10000 in
theorem sboxAt_lt (x : Nat) (hx : x < 256) : sboxAt x < 256 := by
  revert x hx; decide

set_option maxRecDepth 10000 in
theorem xtime_lt (x : Nat) (hx : x < 256) : xtime x < 256 := by
  revert x hx; decide

/-! ### Linearity of `xtime` over xor -/

theorem xor_left_comm (a b c : Nat) : a ^^^ (b ^^^ c) = b ^^^ (a ^^^ c) := by
  rw [← Nat.xor_assoc, Nat.xor_comm a b, Nat.xor_assoc]

theorem testBit_two_mul_succ (x j : Nat) : (2 * x).testBit (j + 1) = x.testBit j := by
  simp [Nat.testBit_succ, Nat.mul_div_cancel_left _ (by norm_num : (0:Nat) < 2)]

theorem two_mul_xor (x y : Nat) : 2 * (x ^^^ y) = 2 * x ^^^ 2 * y := by
  apply Nat.eq_of_testBit_eq
  intro i
  cases i with
  | zero =>
      simp [Nat.testBit_zero, Nat.mul_mod_right]
  | succ j =>
      rw [Nat.testBit_xor, testBit_two_mul_succ, testBit_two_mul_succ,
        testBit_two_mul_succ, Nat.testBit_xor]

theorem hi_bit_iff {z : Nat} (hz : z < 256) : 128 ≤ z ↔ z / 128 % 2 = 1 := by
  omega

theorem xor_hi_bit {x y : Nat} (hx : x < 256) (hy : y < 256) :
    (128 ≤ (x ^^^ y)) ↔ ((128 ≤ x) ↔ ¬(128 ≤ y)) := by
  have hxy : x ^^^ y < 256 := byte_xor_lt hx hy
  have h7 : (x ^^^ y).testBit 7 = (x.testBit 7).xor (y.testBit 7) := Nat.testBit_xor x y 7
  have e : ∀ z : Nat, z < 256 → (z.testBit 7 = true ↔ 128 ≤ z) := by
    intro z hz
    rw [Nat.testBit_to_div_mod]
    simp only [decide_eq_true_eq]
    have : 2 ^ 7 = 128 := by norm_num
    rw [this]
    omega
  rw [← e _ hxy, ← e _ hx, ← e _ hy, h7]
  cases hb : x.testBit 7 <;> cases hc : y.testBit 7 <;> simp

theorem xtime_linear {x y : Nat} (hx : x < 256) (hy : y < 256) :
    xtime (x ^^^ y) = xtime x ^^^ xtime y := by
  have hxy : x ^^^ y < 256 := byte_xor_lt hx hy
  have shape : ∀ z : Nat, z < 256 → xtime z = 2 * z ^^^ (if 128 ≤ z then 283 else 0) := by
    intro z hz
    unfold xtime
    by_cases h : z < 128
    · simp [h, show ¬(128 ≤ z) by omega]
    · simp [h, show 128 ≤ z by omega]
  rw [shape _ hxy, shape _ hx, shape _ hy, two_mul_xor]
  have hbit := xor_hi_bit hx hy
  by_cases h1 : 128 ≤ x <;> by_cases h2 : 128 ≤ y <;>
    simp [h1, h2, hbit] <;>
    simp [Nat.xor_assoc, Nat.xor_comm, xor_left_comm, Nat.xor_self, Nat.xor_zero, Nat.zero_xor, Nat.xor_cancel_left, Nat.xor_cancel_right]

/-! ### The GF(2^8) multipliers are linear and bounded -/

theorem mul3_lt (x : Nat) (hx : x < 256) : mul3 x < 256 :=
  byte_xor_lt (xtime_lt x hx) hx

theorem xt2_lt (x : Nat) (hx : x < 256) : xtime (xtime x) < 256 :=
  xtime_lt _ (xtime_lt _ hx)

theorem xt3_lt (x : Nat) (hx : x < 256) : xtime (xtime (xtime x)) < 256 :=
  xtime_lt _ (xt2_lt _ hx)

theorem mul9_lt (x : Nat) (hx : x < 256) : mul9 x < 256 :=
  byte_xor_lt (xt3_lt x hx) hx

theorem mul11_lt (x : Nat) (hx : x < 256) : mul11 x < 256 :=
  byte_xor_lt (byte_xor_lt (xt3_lt x hx) (xtime_lt x hx)) hx

theorem mul13_lt (x : Nat) (hx : x < 256) : mul13 x < 256 :=
  byte_xor_lt (byte_xor_lt (xt3_lt x hx) (xt2_lt x hx)) hx

theorem mul14_lt (x : Nat) (hx : x < 256) : mul14 x < 256 :=
  byte_xor_lt (byte_xor_lt (xt3_lt x hx) (xt2_lt x hx)) (xtime_lt x hx)

theorem xt2_linear {x y : Nat} (hx : x < 256) (hy : y < 256) :
    xtime (xtime (x ^^^ y)) = xtime (xtime x) ^^^ xtime (xtime y) := by
  rw [xtime_linear hx hy, xtime_linear (xtime_lt x hx) (xtime_lt y hy)]

theorem xt3_linear {x y : Nat} (hx : x < 256) (hy : y < 256) :
    xtime (xtime (xtime (x ^^^ y))) =
      xtime (xtime (xtime x)) ^^^ xtime (xtime (xtime y)) := by
  rw [xt2_linear hx hy, xtime_linear (xt2_lt x hx) (xt2_lt y hy)]

theorem mul3_linear {x y : Nat} (hx : x < 256) (hy : y < 256) :
    mul3 (x ^^^ y) = mul3 x ^^^ mul3 y := by
  unfold mul3
  rw [xtime_linear hx hy]
  simp [Nat.xor_assoc, Nat.xor_comm, xor_left_comm, Nat.xor_self, Nat.xor_zero, Nat.zero_xor, Nat.xor_cancel_left, Nat.xor_cancel_right]

theorem mul9_linear {x y : Nat} (hx : x < 256) (hy : y < 256) :
    mul9 (x ^^^ y) = mul9 x ^^^ mul9 y := by
  unfold mul9
  rw [xt3_linear hx hy]
  simp [Nat.xor_assoc, Nat.xor_comm, xor_left_comm, Nat.xor_self, Nat.xor_zero, Nat.zero_xor, Nat.xor_cancel_left, Nat.xor_cancel_right]

theorem mul11_linear {x y : Nat} (hx : x < 256) (hy : y < 256) :
    mul11 (x ^^^ y) = mul11 x ^^^ mul11 y := by
  unfold mul11
  rw [xt3_linear hx hy, xtime_linear hx hy]
  simp [Nat.xor_assoc, Nat.xor_comm, xor_left_comm, Nat.xor_self, Nat.xor_zero, Nat.zero_xor, Nat.xor_cancel_left, Nat.xor_cancel_right]

theorem mul13_linear {x y : Nat} (hx : x < 256) (hy : y < 256) :
    mul13 (x ^^^ y) = mul13 x ^^^ mul13 y := by
  unfold mul13
  rw [xt3_linear hx hy, xt2_linear hx hy]
  simp [Nat.xor_assoc, Nat.xor_comm, xor_left_comm, Nat.xor_self, Nat.xor_zero, Nat.zero_xor, Nat.xor_cancel_left, Nat.xor_cancel_right]

theorem mul14_linear {x y : Nat} (hx : x < 256) (hy : y < 256) :
    mul14 (x ^^^ y) = mul14 x ^^^ mul14 y := by
  unfold mul14
  rw [xt3_linear hx hy, xt2_linear hx hy, xtime_linear hx hy]
  simp [Nat.xor_assoc, Nat.xor_comm, xor_left_comm, Nat.xor_self, Nat.xor_zero, Nat.zero_xor, Nat.xor_cancel_left, Nat.xor_cancel_right]

/-! ### InvMixColumns inverts MixColumns -/

set_option maxRecDepth 10000 in
theorem mix_basis1 (x : Nat) (hx : x < 256) :
    invMixColT (mixColT (x, 0, 0, 0)) = (x, 0, 0, 0) := by
  revert x hx; decide

set_option maxRecDepth 10000 in
theorem mix_basis2 (x : Nat) (hx : x < 256) :
    invMixColT (mixColT (0, x, 0, 0)) = (0, x, 0, 0) := by
  revert x hx; decide

set_option maxRecDepth 10000 in
theorem mix_basis3 (x : Nat) (hx : x < 256) :
    invMixColT (mixColT (0, 0, x, 0)) = (0, 0, x, 0) := by
  revert x hx; decide

set_option maxRecDepth 10000 in
theorem mix_basis4 (x : Nat) (hx : x < 256) :
    invMixColT (mixColT (0, 0, 0, x)) = (0, 0, 0, x) := by
  revert x hx; decide

theorem mixColT_xor (s t : Nat × Nat × Nat × Nat)
    (hs1 : s.1 < 256) (hs2 : s.2.1 < 256) (hs3 : s.2.2.1 < 256) (hs4 : s.2.2.2 < 256)
    (ht1 : t.1 < 256) (ht2 : t.2.1 < 256) (ht3 : t.2.2.1 < 256) (ht4 : t.2.2.2 < 256) :
    mixColT (txor s t) = txor (mixColT s) (mixColT t) := by
  obtain ⟨a, b, c, d⟩ := s
  obtain ⟨a2, b2, c2, d2⟩ := t
  simp only [txor, mixColT, mixCol] at *
  refine Prod.ext ?_ (Prod.ext ?_ (Prod.ext ?_ ?_)) <;> simp only [] <;>
    rw [xtime_linear (by assumption) (by assumption), mul3_linear (by assumption) (by assumption)] <;>
    simp [Nat.xor_assoc, Nat.xor_comm, xor_left_comm]

theorem invMixColT_xor (s t : Nat × Nat × Nat × Nat)
    (hs1 : s.1 < 256) (hs2 : s.2.1 < 256) (hs3 : s.2.2.1 < 256) (hs4 : s.2.2.2 < 256)
    (ht1 : t.1 < 256) (ht2 : t.2.1 < 256) (ht3 : t.2.2.1 < 256) (ht4 : t.2.2.2 < 256) :
    invMixColT (txor s t) = txor (invMixColT s) (invMixColT t) := by
  obtain ⟨a, b, c, d⟩ := s
  obtain ⟨a2, b2, c2, d2⟩ := t
  simp only [txor, invMixColT, invMixCol] at *
  refine Prod.ext ?_ (Prod.ext ?_ (Prod.ext ?_ ?_)) <;> simp only [] <;>
    rw [mul14_linear (by assumption) (by assumption), mul11_linear (by assumption) (by assumption),
      mul13_linear (by assumption) (by assumption), mul9_linear (by assumption) (by assumption)] <;>
    simp [Nat.xor_assoc, Nat.xor_comm, xor_left_comm]

theorem mixColT_lt (t : Nat × Nat × Nat × Nat)
    (h1 : t.1 < 256) (h2 : t.2.1 < 256) (h3 : t.2.2.1 < 256) (h4 : t.2.2.2 < 256) :
    (mixColT t).1 < 256 ∧ (mixColT t).2.1 < 256 ∧
    (mixColT t).2.2.1 < 256 ∧ (mixColT t).2.2.2 < 256 := by
  obtain ⟨a, b, c, d⟩ := t
  simp only [mixColT, mixCol] at *
  exact ⟨byte_xor_lt (byte_xor_lt (byte_xor_lt (xtime_lt _ h1) (mul3_lt _ h2)) h3) h4,
    byte_xor_lt (byte_xor_lt (byte_xor_lt h1 (xtime_lt _ h2)) (mul3_lt _ h3)) h4,
    byte_xor_lt (byte_xor_lt (byte_xor_lt h1 h2) (xtime_lt _ h3)) (mul3_lt _ h4),
    byte_xor_lt (byte_xor_lt (byte_xor_lt (mul3_lt _ h1) h2) h3) (xtime_lt _ h4)⟩

theorem invMixColT_mixColT (a b c d : Nat)
    (ha : a < 256) (hb : b < 256) (hc : c < 256) (hd : d < 256) :
    invMixColT (mixColT (a, b, c, d)) = (a, b, c, d) := by
  have z : (0 : Nat) < 256 := by norm_num
  have hdec : (a, b, c, d) =
      txor (a, 0, 0, 0) (txor (0, b, 0, 0) (txor (0, 0, c, 0) (0, 0, 0, d))) := by
    simp [txor]
  conv_lhs => rw [hdec]
  rw [mixColT_xor (a,0,0,0) _ ha z z z (by simp [txor] <;> omega) (by simp [txor] <;> omega)
      (by simp [txor] <;> omega) (by simp [txor] <;> omega)]
  rw [mixColT_xor (0,b,0,0) _ z hb z z (by simp [txor] <;> omega) (by simp [txor] <;> omega)
      (by simp [txor] <;> omega) (by simp [txor] <;> omega)]
  rw [mixColT_xor (0,0,c,0) _ z z hc z z z z hd]
  have m1 := mixColT_lt (a,0,0,0) ha z z z
  have m2 := mixColT_lt (0,b,0,0) z hb z z
  have m3 := mixColT_lt (0,0,c,0) z z hc z
  have m4 := mixColT_lt (0,0,0,d) z z z hd
  rw [invMixColT_xor _ _ m1.1 m1.2.1 m1.2.2.1 m1.2.2.2
      (byte_xor_lt m2.1 (byte_xor_lt m3.1 m4.1))
      (byte_xor_lt m2.2.1 (byte_xor_lt m3.2.1 m4.2.1))
      (byte_xor_lt m2.2.2.1 (byte_xor_lt m3.2.2.1 m4.2.2.1))
      (byte_xor_lt m2.2.2.2 (byte_xor_lt m3.2.2.2 m4.2.2.2))]
  rw [invMixColT_xor _ _ m2.1 m2.2.1 m2.2.2.1 m2.2.2.2
      (byte_xor_lt m3.1 m4.1) (byte_xor_lt m3.2.1 m4.2.1)
      (byte_xor_lt m3.2.2.1 m4.2.2.1) (byte_xor_lt m3.2.2.2 m4.2.2.2)]
  rw [invMixColT_xor _ _ m3.1 m3.2.1 m3.2.2.1 m3.2.2.2 m4.1 m4.2.1 m4.2.2.1 m4.2.2.2]
  rw [mix_basis1 a ha, mix_basis2 b hb, mix_basis3 c hc, mix_basis4 d hd]
  simp [txor]

/-! ### State-level round operations invert each other -/

theorem shiftRows_inv (st : AESState) : invShiftRows (shiftRows st) = st := rfl

theorem shiftRows_valid {st : AESState} (h : st.Valid) : (shiftRows st).Valid :=
  ⟨h.1,
    h.2.2.2.2.2.1,
    h.2.2.2.2.2.2.2.2.2.2.1,
    h.2.2.2.2.2.2.2.2.2.2.2.2.2.2.2,
    h.2.2.2.2.1,
    h.2.2.2.2.2.2.2.2.2.1,
    h.2.2.2.2.2.2.2.2.2.2.2.2.2.2.1,
    h.2.2.2.1,
    h.2.2.2.2.2.2.2.2.1,
    h.2.2.2.2.2.2.2.2.2.2.2.2.2.1,
    h.2.2.1,
    h.2.2.2.2.2.2.2.1,
    h.2.2.2.2.2.2.2.2.2.2.2.2.1,
    h.2.1,
    h.2.2.2.2.2.2.1,
    h.2.2.2.2.2.2.2.2.2.2.2.1⟩

theorem subBytes_inv {st : AESState} (h : st.Valid) : invSubBytes (subBytes st) = st := by
  cases st
  simp only [subBytes, invSubBytes, AESState.mk.injEq]
  simp only [AESState.Valid] at h
  exact ⟨sboxAt_invSboxAt _ (h.1),
    sboxAt_invSboxAt _ (h.2.1),
    sboxAt_invSboxAt _ (h.2.2.1),
    sboxAt_invSboxAt _ (h.2.2.2.1),
    sboxAt_invSboxAt _ (h.2.2.2.2.1),
    sboxAt_invSboxAt _ (h.2.2.2.2.2.1),
    sboxAt_invSboxAt _ (h.2.2.2.2.2.2.1),
    sboxAt_invSboxAt _ (h.2.2.2.2.2.2.2.1),
    sboxAt_invSboxAt _ (h.2.2.2.2.2.2.2.2.1),
    sboxAt_invSboxAt _ (h.2.2.2.2.2.2.2.2.2.1),
    sboxAt_invSboxAt _ (h.2.2.2.2.2.2.2.2.2.2.1),
    sboxAt_invSboxAt _ (h.2.2.2.2.2.2.2.2.2.2.2.1),
    sboxAt_invSboxAt _ (h.2.2.2.2.2.2.2.2.2.2.2.2.1),
    sboxAt_invSboxAt _ (h.2.2.2.2.2.2.2.2.2.2.2.2.2.1),
    sboxAt_invSboxAt _ (h.2.2.2.2.2.2.2.2.2.2.2.2.2.2.1),
    sboxAt_invSboxAt _ (h.2.2.2.2.2.2.2.2.2.2.2.2.2.2.2)⟩

theorem subBytes_valid {st : AESState} (h : st.Valid) : (subBytes st).Valid := by
  cases st
  simp only [AESState.Valid] at h ⊢
  exact ⟨sboxAt_lt _ (h.1),
    sboxAt_lt _ (h.2.1),
    sboxAt_lt _ (h.2.2.1),
    sboxAt_lt _ (h.2.2.2.1),
    sboxAt_lt _ (h.2.2.2.2.1),
    sboxAt_lt _ (h.2.2.2.2.2.1),
    sboxAt_lt _ (h.2.2.2.2.2.2.1),
    sboxAt_lt _ (h.2.2.2.2.2.2.2.1),
    sboxAt_lt _ (h.2.2.2.2.2.2.2.2.1),
    sboxAt_lt _ (h.2.2.2.2.2.2.2.2.2.1),
    sboxAt_lt _ (h.2.2.2.2.2.2.2.2.2.2.1),
    sboxAt_lt _ (h.2.2.2.2.2.2.2.2.2.2.2.1),
    sboxAt_lt _ (h.2.2.2.2.2.2.2.2.2.2.2.2.1),
    sboxAt_lt _ (h.2.2.2.2.2.2.2.2.2.2.2.2.2.1),
    sboxAt_lt _ (h.2.2.2.2.2.2.2.2.2.2.2.2.2.2.1),
    sboxAt_lt _ (h.2.2.2.2.2.2.2.2.2.2.2.2.2.2.2)⟩

theorem addRoundKey_cancel (k st : AESState) : addRoundKey k (addRoundKey k st) = st := by
  cases st
  simp [addRoundKey, Nat.xor_cancel_right]

theorem addRoundKey_valid {k st : AESState} (h : st.Valid) (hk : k.Valid) :
    (addRoundKey k st).Valid := by
  cases st
  simp only [AESState.Valid] at h hk ⊢
  exact ⟨byte_xor_lt (h.1) (hk.1),
    byte_xor_lt (h.2.1) (hk.2.1),
    byte_xor_lt (h.2.2.1) (hk.2.2.1),
    byte_xor_lt (h.2.2.2.1) (hk.2.2.2.1),
    byte_xor_lt (h.2.2.2.2.1) (hk.2.2.2.2.1),
    byte_xor_lt (h.2.2.2.2.2.1) (hk.2.2.2.2.2.1),
    byte_xor_lt (h.2.2.2.2.2.2.1) (hk.2.2.2.2.2.2.1),
    byte_xor_lt (h.2.2.2.2.2.2.2.1) (hk.2.2.2.2.2.2.2.1),
    byte_xor_lt (h.2.2.2.2.2.2.2.2.1) (hk.2.2.2.2.2.2.2.2.1),
    byte_xor_lt (h.2.2.2.2.2.2.2.2.2.1) (hk.2.2.2.2.2.2.2.2.2.1),
    byte_xor_lt (h.2.2.2.2.2.2.2.2.2.2.1) (hk.2.2.2.2.2.2.2.2.2.2.1),
    byte_xor_lt (h.2.2.2.2.2.2.2.2.2.2.2.1) (hk.2.2.2.2.2.2.2.2.2.2.2.1),
    byte_xor_lt (h.2.2.2.2.2.2.2.2.2.2.2.2.1) (hk.2.2.2.2.2.2.2.2.2.2.2.2.1),
    byte_xor_lt (h.2.2.2.2.2.2.2.2.2.2.2.2.2.1) (hk.2.2.2.2.2.2.2.2.2.2.2.2.2.1),
    byte_xor_lt (h.2.2.2.2.2.2.2.2.2.2.2.2.2.2.1) (hk.2.2.2.2.2.2.2.2.2.2.2.2.2.2.1),
    byte_xor_lt (h.2.2.2.2.2.2.2.2.2.2.2.2.2.2.2) (hk.2.2.2.2.2.2.2.2.2.2.2.2.2.2.2)⟩

theorem mixColumns_valid {st : AESState} (h : st.Valid) : (mixColumns st).Valid := by
  have v0 := mixColT_lt (st.s0, st.s1, st.s2, st.s3) (h.1) (h.2.1) (h.2.2.1) (h.2.2.2.1)
  have v1 := mixColT_lt (st.s4, st.s5, st.s6, st.s7) (h.2.2.2.2.1) (h.2.2.2.2.2.1) (h.2.2.2.2.2.2.1) (h.2.2.2.2.2.2.2.1)
  have v2 := mixColT_lt (st.s8, st.s9, st.s10, st.s11) (h.2.2.2.2.2.2.2.2.1) (h.2.2.2.2.2.2.2.2.2.1) (h.2.2.2.2.2.2.2.2.2.2.1) (h.2.2.2.2.2.2.2.2.2.2.2.1)
  have v3 := mixColT_lt (st.s12, st.s13, st.s14, st.s15) (h.2.2.2.2.2.2.2.2.2.2.2.2.1) (h.2.2.2.2.2.2.2.2.2.2.2.2.2.1) (h.2.2.2.2.2.2.2.2.2.2.2.2.2.2.1) (h.2.2.2.2.2.2.2.2.2.2.2.2.2.2.2)
  exact ⟨v0.1, v0.2.1, v0.2.2.1, v0.2.2.2,
    v1.1, v1.2.1, v1.2.2.1, v1.2.2.2,
    v2.1, v2.2.1, v2.2.2.1, v2.2.2.2,
    v3.1, v3.2.1, v3.2.2.1, v3.2.2.2⟩

theorem mixColumns_inv {st : AESState} (h : st.Valid) :
    invMixColumns (mixColumns st) = st := by
  have e0 := invMixColT_mixColT st.s0 st.s1 st.s2 st.s3 (h.1) (h.2.1) (h.2.2.1) (h.2.2.2.1)
  have e1 := invMixColT_mixColT st.s4 st.s5 st.s6 st.s7 (h.2.2.2.2.1) (h.2.2.2.2.2.1) (h.2.2.2.2.2.2.1) (h.2.2.2.2.2.2.2.1)
  have e2 := invMixColT_mixColT st.s8 st.s9 st.s10 st.s11 (h.2.2.2.2.2.2.2.2.1) (h.2.2.2.2.2.2.2.2.2.1) (h.2.2.2.2.2.2.2.2.2.2.1) (h.2.2.2.2.2.2.2.2.2.2.2.1)
  have e3 := invMixColT_mixColT st.s12 st.s13 st.s14 st.s15 (h.2.2.2.2.2.2.2.2.2.2.2.2.1) (h.2.2.2.2.2.2.2.2.2.2.2.2.2.1) (h.2.2.2.2.2.2.2.2.2.2.2.2.2.2.1) (h.2.2.2.2.2.2.2.2.2.2.2.2.2.2.2)
  cases st
  simp only [mixColumns, invMixColumns, AESState.mk.injEq]
  exact ⟨congrArg (fun t => t.1) e0,
    congrArg (fun t => t.2.1) e0,
    congrArg (fun t => t.2.2.1) e0,
    congrArg (fun t => t.2.2.2) e0,
    congrArg (fun t => t.1) e1,
    congrArg (fun t => t.2.1) e1,
    congrArg (fun t => t.2.2.1) e1,
    congrArg (fun t => t.2.2.2) e1,
    congrArg (fun t => t.1) e2,
    congrArg (fun t => t.2.1) e2,
    congrArg (fun t => t.2.2.1) e2,
    congrArg (fun t => t.2.2.2) e2,
    congrArg (fun t => t.1) e3,
    congrArg (fun t => t.2.1) e3,
    congrArg (fun t => t.2.2.1) e3,
    congrArg (fun t => t.2.2.2) e3⟩

/-! ### The AES round sequence inverts -/

theorem encRounds_inv (rks : List AESState) :
    ∀ st : AESState, (∀ k ∈ rks, k.Valid) → st.Valid →
      invRounds rks (encRounds rks st) = st := by
  induction rks with
  | nil => intro st _ _; rfl
  | cons k rest ih =>
      intro st hk hst
      cases rest with
      | nil =>
          simp only [encRounds, invRounds]
          rw [addRoundKey_cancel, shiftRows_inv, subBytes_inv hst]
      | cons k2 rest2 =>
          simp only [encRounds, invRounds]
          have hmid : (addRoundKey k (mixColumns (shiftRows (subBytes st)))).Valid :=
            addRoundKey_valid (mixColumns_valid (shiftRows_valid (subBytes_valid hst)))
              (hk k (by simp))
          rw [ih _ (fun x hx => hk x (by simp [hx])) hmid]
          rw [addRoundKey_cancel, mixColumns_inv (shiftRows_valid (subBytes_valid hst)),
            shiftRows_inv, subBytes_inv hst]

theorem encRounds_valid (rks : List AESState) :
    ∀ st : AESState, (∀ k ∈ rks, k.Valid) → st.Valid → (encRounds rks st).Valid := by
  induction rks with
  | nil => intro st _ hst; exact hst
  | cons k rest ih =>
      intro st hk hst
      cases rest with
      | nil =>
          exact addRoundKey_valid (shiftRows_valid (subBytes_valid hst)) (hk k (by simp))
      | cons k2 rest2 =>
          exact ih _ (fun x hx => hk x (by simp [hx]))
            (addRoundKey_valid (mixColumns_valid (shiftRows_valid (subBytes_valid hst)))
              (hk k (by simp)))

theorem aesDecSt_aesEncSt (rks : List AESState) (st : AESState)
    (hk : ∀ k ∈ rks, k.Valid) (hst : st.Valid) :
    aesDecSt rks (aesEncSt rks st) = st := by
  cases rks with
  | nil => rfl
  | cons k0 rest =>
      simp only [aesEncSt, aesDecSt]
      rw [encRounds_inv rest _ (fun x hx => hk x (by simp [hx]))
        (addRoundKey_valid hst (hk k0 (by simp))), addRoundKey_cancel]

theorem aesEncSt_valid (rks : List AESState) (st : AESState)
    (hk : ∀ k ∈ rks, k.Valid) (hst : st.Valid) : (aesEncSt rks st).Valid := by
  cases rks with
  | nil => exact hst
  | cons k0 rest =>
      exact encRounds_valid rest _ (fun x hx => hk x (by simp [hx]))
        (addRoundKey_valid hst (hk k0 (by simp)))

/-! ### The key schedule produces valid round keys -/

theorem getD_word_valid {ws : List Word4} (h : ∀ w ∈ ws, WValid w) (i : Nat) :
    WValid (ws.getD i (0, 0, 0, 0)) := by
  induction ws generalizing i with
  | nil => simp [List.getD, WValid]
  | cons a t ih =>
      cases i with
      | zero => exact h a (by simp)
      | succ j =>
          simp only [List.getD_cons_succ]
          exact ih (fun w hw => h w (by simp [hw])) j

theorem xorWord_valid {a b : Word4} (ha : WValid a) (hb : WValid b) : WValid (xorWord a b) :=
  ⟨byte_xor_lt ha.1 hb.1, byte_xor_lt ha.2.1 hb.2.1,
   byte_xor_lt ha.2.2.1 hb.2.2.1, byte_xor_lt ha.2.2.2 hb.2.2.2⟩

theorem subWord_valid {w : Word4} (h : WValid w) : WValid (subWord w) :=
  ⟨sboxAt_lt _ h.1, sboxAt_lt _ h.2.1, sboxAt_lt _ h.2.2.1, sboxAt_lt _ h.2.2.2⟩

theorem rotWord_valid {w : Word4} (h : WValid w) : WValid (rotWord w) :=
  ⟨h.2.1, h.2.2.1, h.2.2.2, h.1⟩

theorem rcon_getD_lt (i : Nat) : rcon.getD i 0 < 256 :=
  getD_lt_of_all (by decide) (by norm_num) i

theorem expandFrom_valid (fuel : Nat) :
    ∀ (ws : List Word4) (i : Nat), (∀ w ∈ ws, WValid w) →
      ∀ w ∈ expandFrom ws i fuel, WValid w := by
  induction fuel with
  | zero => intro ws i h w hw; exact h w hw
  | succ f ih =>
      intro ws i h w hw
      refine ih _ _ ?_ w hw
      intro w2 hw2
      rcases List.mem_append.mp hw2 with h2 | h2
      · exact h w2 h2
      · have hprev := getD_word_valid h (i - 1)
        have hw4 := getD_word_valid h (i - 4)
        simp only [List.mem_singleton] at h2
        subst h2
        by_cases hc : i % 4 == 0 <;>
          simp only [hc, if_pos, if_neg, Bool.false_eq_true, ite_true, ite_false]
        · exact xorWord_valid (xorWord_valid hw4 (subWord_valid (rotWord_valid hprev)))
            ⟨rcon_getD_lt _, by norm_num, by norm_num, by norm_num⟩
        · exact xorWord_valid hw4 hprev

theorem keyWords_valid {key : List Nat} (hkey : ∀ b ∈ key, b < 256) :
    ∀ w ∈ keyWords key, WValid w := by
  apply expandFrom_valid
  intro w hw
  have hb : ∀ j : Nat, key.getD j 0 < 256 := fun j => getD_lt_of_all hkey (by norm_num) j
  fin_cases hw <;> exact ⟨hb _, hb _, hb _, hb _⟩

theorem roundKeyState_valid {ws : List Word4} (h : ∀ w ∈ ws, WValid w) (r : Nat) :
    (roundKeyState ws r).Valid := by
  have h0 := getD_word_valid h (4 * r)
  have h1 := getD_word_valid h (4 * r + 1)
  have h2 := getD_word_valid h (4 * r + 2)
  have h3 := getD_word_valid h (4 * r + 3)
  exact ⟨h0.1, h0.2.1, h0.2.2.1, h0.2.2.2, h1.1, h1.2.1, h1.2.2.1, h1.2.2.2,
    h2.1, h2.2.1, h2.2.2.1, h2.2.2.2, h3.1, h3.2.1, h3.2.2.1, h3.2.2.2⟩

theorem roundKeys_valid {key : List Nat} (hkey : ∀ b ∈ key, b < 256) :
    ∀ rk ∈ roundKeys key, rk.Valid := by
  intro rk hrk
  simp only [roundKeys, List.mem_map] at hrk
  obtain ⟨r, _, rfl⟩ := hrk
  exact roundKeyState_valid (keyWords_valid hkey) r

/-! ### Block-level inverse -/

theorem aesDecBlock_aesEncBlock {key : List Nat} {st : AESState}
    (hkey : ∀ b ∈ key, b < 256) (hst : st.Valid) :
    aesDecBlock key (aesEncBlock key st) = st :=
  aesDecSt_aesEncSt _ _ (roundKeys_valid hkey) hst

theorem aesEncBlock_valid {key : List Nat} {st : AESState}
    (hkey : ∀ b ∈ key, b < 256) (hst : st.Valid) : (aesEncBlock key st).Valid :=
  aesEncSt_valid _ _ (roundKeys_valid hkey) hst

/-! ### Bytes/state plumbing -/

theorem stateOfBytes_valid {l : List Nat} (h : ∀ x ∈ l, x < 256) :
    (stateOfBytes l).Valid := by
  have hb : ∀ i : Nat, l.getD i 0 < 256 := fun i => getD_lt_of_all h (by norm_num) i
  exact ⟨hb 0, hb 1, hb 2, hb 3, hb 4, hb 5, hb 6, hb 7,
    hb 8, hb 9, hb 10, hb 11, hb 12, hb 13, hb 14, hb 15⟩

theorem bytesOfState_valid {st : AESState} (h : st.Valid) :
    ∀ x ∈ bytesOfState st, x < 256 := by
  unfold AESState.Valid at h
  intro x hx
  simp only [bytesOfState, List.mem_cons, List.not_mem_nil, or_false] at hx
  rcases hx with rfl | rfl | rfl | rfl | rfl | rfl | rfl | rfl |
    rfl | rfl | rfl | rfl | rfl | rfl | rfl | rfl <;> omega

theorem stateOfBytes_bytesOfState (st : AESState) :
    stateOfBytes (bytesOfState st) = st := rfl

theorem bytesOfState_stateOfBytes (l : List Nat) (h : l.length = 16) :
    bytesOfState (stateOfBytes l) = l := by
  match l, h with
  | [b0, b1, b2, b3, b4, b5, b6, b7, b8, b9, b10, b11, b12, b13, b14, b15], _ => rfl

theorem bytesOfState_length (st : AESState) : (bytesOfState st).length = 16 := rfl

theorem bytesOfState_ne_nil (st : AESState) : bytesOfState st ≠ [] := by
  simp [bytesOfState]

theorem chunksOf_nil (k : Nat) : chunksOf k ([] : List α) = [] := by
  rw [chunksOf]; simp

theorem chunksOf_cons {k : Nat} {l : List α} (hk : k ≠ 0) (hl : l ≠ []) :
    chunksOf k l = l.take k :: chunksOf k (l.drop k) := by
  rw [chunksOf]
  simp [hk, hl]

theorem chunksOf_mem_mem_aux (k : Nat) (n : Nat) :
    ∀ (l : List α), l.length ≤ n → ∀ c ∈ chunksOf k l, ∀ x ∈ c, x ∈ l := by
  induction n with
  | zero =>
      intro l hl c hc x hx
      have : l = [] := List.eq_nil_of_length_eq_zero (Nat.le_zero.mp hl)
      subst this
      rw [chunksOf_nil] at hc
      simp at hc
  | succ n ih =>
      intro l hl c hc x hx
      by_cases hk : k = 0
      · rw [chunksOf] at hc; simp [hk] at hc
      by_cases hnil : l = []
      · subst hnil; rw [chunksOf_nil] at hc; simp at hc
      rw [chunksOf_cons hk hnil] at hc
      rcases List.mem_cons.mp hc with rfl | h2
      · exact List.mem_of_mem_take hx
      · have hlt : (l.drop k).length ≤ n := by
          have h1 : 1 ≤ k := Nat.pos_of_ne_zero hk
          have h2 : 1 ≤ l.length := List.length_pos.mpr hnil
          simp only [List.length_drop]
          omega
        exact List.mem_of_mem_drop (ih (l.drop k) hlt c h2 x hx)

theorem chunksOf_mem_mem (k : Nat) (l : List α) :
    ∀ c ∈ chunksOf k l, ∀ x ∈ c, x ∈ l :=
  chunksOf_mem_mem_aux k l.length l le_rfl

theorem bytesToStates_statesToBytes (sts : List AESState) :
    bytesToStates (statesToBytes sts) = sts := by
  induction sts with
  | nil => simp [bytesToStates, statesToBytes, chunksOf_nil]
  | cons st rest ih =>
      have e : statesToBytes (st :: rest) = bytesOfState st ++ statesToBytes rest := by
        simp [statesToBytes]
      rw [bytesToStates, e, chunksOf_cons (by norm_num)
        (by simp [bytesOfState_ne_nil st, List.append_ne_nil_of_left_ne_nil])]
      rw [← bytesOfState_length st, List.take_left, List.drop_left]
      simp only [List.map_cons]
      rw [bytesOfState_length st]
      exact congrArg₂ _ (stateOfBytes_bytesOfState st) ih

theorem statesToBytes_bytesToStates (l : List Nat) (h : 16 ∣ l.length) :
    statesToBytes (bytesToStates l) = l := by
  by_cases hl : l = []
  · simp [hl, bytesToStates, statesToBytes, chunksOf_nil]
  · have hlen : 16 ≤ l.length := Nat.le_of_dvd (List.length_pos.mpr hl) h
    rw [bytesToStates, chunksOf_cons (by norm_num) hl]
    simp only [List.map_cons]
    have e : statesToBytes (stateOfBytes (l.take 16) :: (chunksOf 16 (l.drop 16)).map stateOfBytes) =
        bytesOfState (stateOfBytes (l.take 16)) ++ statesToBytes ((chunksOf 16 (l.drop 16)).map stateOfBytes) := by
      simp [statesToBytes]
    rw [e, bytesOfState_stateOfBytes _ (by simp [List.length_take]; omega)]
    have ih := statesToBytes_bytesToStates (l.drop 16)
      (by simpa [List.length_drop] using Nat.dvd_sub' h (by norm_num))
    rw [bytesToStates] at ih
    rw [ih, List.take_append_drop]
termination_by l.length
decreasing_by
  simp only [List.length_drop]
  exact Nat.sub_lt (List.length_pos.mpr hl) (by norm_num)

theorem bytesToStates_valid {bs : List Nat} (h : ∀ x ∈ bs, x < 256) :
    ∀ st ∈ bytesToStates bs, st.Valid := by
  intro st hst
  simp only [bytesToStates, List.mem_map] at hst
  obtain ⟨c, hc, rfl⟩ := hst
  exact stateOfBytes_valid (fun x hx => h x (chunksOf_mem_mem 16 bs c hc x hx))

theorem statesToBytes_valid {sts : List AESState} (h : ∀ st ∈ sts, st.Valid) :
    ∀ x ∈ statesToBytes sts, x < 256 := by
  intro x hx
  simp only [statesToBytes, List.mem_flatMap] at hx
  obtain ⟨st, hst, hxst⟩ := hx
  exact bytesOfState_valid (h st hst) x hxst

/-! ### CBC inverts -/

theorem cbcDecSt_cbcEncSt {key : List Nat} (hkey : ∀ b ∈ key, b < 256) :
    ∀ (ps : List AESState) (prev : AESState), prev.Valid → (∀ p ∈ ps, p.Valid) →
      cbcDecSt key prev (cbcEncSt key prev ps) = ps := by
  intro ps
  induction ps with
  | nil => intro prev _ _; rfl
  | cons p rest ih =>
      intro prev hprev hps
      simp only [cbcEncSt, cbcDecSt]
      have hp : p.Valid := hps p (by simp)
      have hxp : (addRoundKey prev p).Valid := addRoundKey_valid hp hprev
      rw [aesDecBlock_aesEncBlock hkey hxp, addRoundKey_cancel,
        ih _ (aesEncBlock_valid hkey hxp) (fun q hq => hps q (by simp [hq]))]

theorem cbcEncSt_valid {key : List Nat} (hkey : ∀ b ∈ key, b < 256) :
    ∀ (ps : List AESState) (prev : AESState), prev.Valid → (∀ p ∈ ps, p.Valid) →
      ∀ c ∈ cbcEncSt key prev ps, c.Valid := by
  intro ps
  induction ps with
  | nil => intro prev _ _ c hc; simp [cbcEncSt] at hc
  | cons p rest ih =>
      intro prev hprev hps c hc
      simp only [cbcEncSt, List.mem_cons] at hc
      have hxp : (addRoundKey prev p).Valid := addRoundKey_valid (hps p (by simp)) hprev
      rcases hc with rfl | hc
      · exact aesEncBlock_valid hkey hxp
      · exact ih _ (aesEncBlock_valid hkey hxp) (fun q hq => hps q (by simp [hq])) c hc

/-! ### Byte-level CBC round trip -/

theorem aesCbc_roundtrip {key iv bs : List Nat} (hkey : ∀ b ∈ key, b < 256)
    (hiv : ∀ x ∈ iv, x < 256) (hbs : ∀ x ∈ bs, x < 256) (hlen : 16 ∣ bs.length) :
    aesCbcDecryptBytes key iv (aesCbcEncryptBytes key iv bs) = bs := by
  unfold aesCbcEncryptBytes aesCbcDecryptBytes
  rw [bytesToStates_statesToBytes]
  rw [cbcDecSt_cbcEncSt hkey _ _ (stateOfBytes_valid hiv) (bytesToStates_valid hbs)]
  exact statesToBytes_bytesToStates bs hlen

theorem aesCbcEncryptBytes_valid {key iv bs : List Nat} (hkey : ∀ b ∈ key, b < 256)
    (hiv : ∀ x ∈ iv, x < 256) (hbs : ∀ x ∈ bs, x < 256) :
    ∀ x ∈ aesCbcEncryptBytes key iv bs, x < 256 := by
  unfold aesCbcEncryptBytes
  exact statesToBytes_valid
    (cbcEncSt_valid hkey _ _ (stateOfBytes_valid hiv) (bytesToStates_valid hbs))

/-! ### PKCS#7 padding round trip -/

theorem pkcs7pad_length (bs : List Nat) :
    (pkcs7pad bs).length = bs.length + (16 - bs.length % 16) := by
  simp [pkcs7pad]

theorem pkcs7pad_length_dvd (bs : List Nat) : 16 ∣ (pkcs7pad bs).length := by
  rw [pkcs7pad_length]
  have h : bs.length % 16 < 16 := Nat.mod_lt _ (by norm_num)
  omega

theorem pkcs7pad_valid {bs : List Nat} (h : ∀ x ∈ bs, x < 256) :
    ∀ x ∈ pkcs7pad bs, x < 256 := by
  intro x hx
  simp only [pkcs7pad, List.mem_append, List.mem_replicate] at hx
  rcases hx with hx | ⟨-, rfl⟩
  · exact h x hx
  · have : bs.length % 16 < 16 := Nat.mod_lt _ (by norm_num)
    omega

theorem pkcs7unpad_pkcs7pad (bs : List Nat) : pkcs7unpad (pkcs7pad bs) = some bs := by
  set k := 16 - bs.length % 16 with hk
  have hmod : bs.length % 16 < 16 := Nat.mod_lt _ (by norm_num)
  have hk1 : 1 ≤ k := by omega
  have hk16 : k ≤ 16 := by omega
  obtain ⟨m, hm⟩ : ∃ m, k = m + 1 := ⟨k - 1, by omega⟩
  have hpad : pkcs7pad bs = (bs ++ List.replicate m k) ++ [k] := by
    simp only [pkcs7pad, ← hk, hm, List.replicate_succ']
    rw [List.append_assoc]
  have hlast : (pkcs7pad bs).getLast? = some k := by
    rw [hpad, List.getLast?_concat]
  have hlen : (pkcs7pad bs).length = bs.length + k := by
    simp [pkcs7pad, ← hk]
  rw [pkcs7unpad, hlast]
  have hdrop : (pkcs7pad bs).drop ((pkcs7pad bs).length - k) = List.replicate k k := by
    have e : pkcs7pad bs = bs ++ List.replicate k k := by simp [pkcs7pad, ← hk]
    rw [e]
    have : (bs ++ List.replicate k k).length - k = bs.length := by
      simp [List.length_append]
    rw [this]
    have := List.drop_left bs (List.replicate k k)
    exact this
  have htake : (pkcs7pad bs).take ((pkcs7pad bs).length - k) = bs := by
    have e : pkcs7pad bs = bs ++ List.replicate k k := by simp [pkcs7pad, ← hk]
    rw [e]
    have : (bs ++ List.replicate k k).length - k = bs.length := by
      simp [List.length_append]
    rw [this]
    exact List.take_left bs (List.replicate k k)
  simp only [hdrop, htake]
  have hall : (List.replicate k k).all (· == k) = true := by
    simp [List.all_eq_true, List.mem_replicate]
  rw [if_pos ⟨hk1, hk16, by omega, hall⟩]

/-! ### Base64 round trip -/

set_option maxRecDepth 10000 in
theorem sextetOf_b64Char (n : Nat) (hn : n < 64) : sextetOf (b64Char n) = some n := by
  revert n hn; decide

set_option maxRecDepth 10000 in
theorem b64Char_ne_pad (n : Nat) (hn : n < 64) : b64Char n ≠ '=' := by
  revert n hn; decide

theorem b64Decode_b64Encode (bs : List Nat) (h : ∀ x ∈ bs, x < 256) :
    b64Decode (b64Encode bs) = some bs := by
  induction bs using b64Encode.induct with
  | case1 b0 b1 b2 rest ih =>
      have h0 : b0 < 256 := h b0 (by simp)
      have h1 : b1 < 256 := h b1 (by simp)
      have h2 : b2 < 256 := h b2 (by simp)
      have e0 := sextetOf_b64Char (b0 / 4) (by omega)
      have e1 := sextetOf_b64Char (b0 % 4 * 16 + b1 / 16) (by omega)
      have e2 := sextetOf_b64Char (b1 % 16 * 4 + b2 / 64) (by omega)
      have e3 := sextetOf_b64Char (b2 % 64) (by omega)
      have n2 := b64Char_ne_pad (b1 % 16 * 4 + b2 / 64) (by omega)
      have n3 := b64Char_ne_pad (b2 % 64) (by omega)
      have ih2 := ih (fun x hx => h x (by simp [hx]))
      simp only [b64Encode, b64Decode, e0, e1, e2, e3, n2, n3, ih2,
        Option.bind_eq_bind, Option.some_bind, if_neg, if_false, Option.some.injEq,
        List.cons.injEq, and_true, true_and, if_true, ite_true, ite_false, false_and]
      omega
  | case2 b0 b1 =>
      have h0 : b0 < 256 := h b0 (by simp)
      have h1 : b1 < 256 := h b1 (by simp)
      have e0 := sextetOf_b64Char (b0 / 4) (by omega)
      have e1 := sextetOf_b64Char (b0 % 4 * 16 + b1 / 16) (by omega)
      have e2 := sextetOf_b64Char (b1 % 16 * 4) (by omega)
      have n2 := b64Char_ne_pad (b1 % 16 * 4) (by omega)
      simp only [b64Encode, b64Decode, e0, e1, e2, n2,
        Option.bind_eq_bind, Option.some_bind, if_neg, if_pos, and_self, if_false,
        Option.some.injEq, List.cons.injEq, and_true, true_and, if_true, ite_true, ite_false, false_and]
      omega
  | case3 b0 =>
      have h0 : b0 < 256 := h b0 (by simp)
      have e0 := sextetOf_b64Char (b0 / 4) (by omega)
      have e1 := sextetOf_b64Char (b0 % 4 * 16) (by omega)
      simp only [b64Encode, b64Decode, e0, e1,
        Option.bind_eq_bind, Option.some_bind, if_pos, and_self,
        Option.some.injEq, List.cons.injEq, and_true, true_and]
      omega
  | case4 => rfl

/-! ### UTF-8 bytes are bytes -/

theorem char_toNat_lt (c : Char) : c.toNat < 1114112 := by
  have h := c.valid
  simp only [UInt32.isValidChar, Nat.isValidChar] at h
  show c.val.toNat < 1114112
  omega

theorem or_byte_lt {a b : Nat} (ha : a < 256) (hb : b < 256) : a ||| b < 256 := by
  have h : (256 : Nat) = 2 ^ 8 := by norm_num
  rw [h] at ha hb ⊢
  exact Nat.or_lt_two_pow ha hb

theorem utf8EncodeChar_valid (c : Char) : ∀ x ∈ utf8EncodeChar c, x < 256 := by
  intro x hx
  have hc := char_toNat_lt c
  have d6 : c.toNat >>> 6 = c.toNat / 64 := by
    rw [Nat.shiftRight_eq_div_pow]
  have d12 : c.toNat >>> 12 = c.toNat / 4096 := by
    rw [Nat.shiftRight_eq_div_pow]
  have d18 : c.toNat >>> 18 = c.toNat / 262144 := by
    rw [Nat.shiftRight_eq_div_pow]
  have a1 : c.toNat &&& 63 ≤ 63 := Nat.and_le_right
  have a2 : c.toNat >>> 6 &&& 63 ≤ 63 := Nat.and_le_right
  have a3 : c.toNat >>> 12 &&& 63 ≤ 63 := Nat.and_le_right
  simp only [utf8EncodeChar] at hx
  by_cases h1 : c.toNat < 128
  · rw [if_pos h1] at hx
    simp only [List.mem_singleton] at hx
    omega
  · rw [if_neg h1] at hx
    by_cases h2 : c.toNat < 2048
    · rw [if_pos h2] at hx
      simp only [List.mem_cons, List.not_mem_nil, or_false] at hx
      rcases hx with rfl | rfl
      · exact or_byte_lt (by norm_num) (by omega)
      · exact or_byte_lt (by norm_num) (by omega)
    · rw [if_neg h2] at hx
      by_cases h3 : c.toNat < 65536
      · rw [if_pos h3] at hx
        simp only [List.mem_cons, List.not_mem_nil, or_false] at hx
        rcases hx with rfl | rfl | rfl
        · exact or_byte_lt (by norm_num) (by omega)
        · exact or_byte_lt (by norm_num) (by omega)
        · exact or_byte_lt (by norm_num) (by omega)
      · rw [if_neg h3] at hx
        simp only [List.mem_cons, List.not_mem_nil, or_false] at hx
        rcases hx with rfl | rfl | rfl | rfl
        · exact or_byte_lt (by norm_num) (by omega)
        · exact or_byte_lt (by norm_num) (by omega)
        · exact or_byte_lt (by norm_num) (by omega)
        · exact or_byte_lt (by norm_num) (by omega)

theorem utf8Encode_valid (s : String) : ∀ x ∈ utf8Encode s, x < 256 := by
  intro x hx
  simp only [utf8Encode, List.mem_flatMap] at hx
  obtain ⟨c, _, hxc⟩ := hx
  exact utf8EncodeChar_valid c x hxc

/-! ### The full encrypt/decrypt pipeline round trip -/

theorem decryptPipeline_encryptBytes {key iv pt : List Nat}
    (hkey : ∀ b ∈ key, b < 256) (hiv : ∀ b ∈ iv, b < 256) (hpt : ∀ b ∈ pt, b < 256) :
    decryptPipeline key iv (String.mk (encryptBytes key iv pt)) = some pt := by
  unfold decryptPipeline encryptBytes
  have hct : ∀ x ∈ aesCbcEncryptBytes key iv (pkcs7pad pt), x < 256 :=
    aesCbcEncryptBytes_valid hkey hiv (pkcs7pad_valid hpt)
  show (do
    let bs ← b64Decode (String.mk (b64Encode (aesCbcEncryptBytes key iv (pkcs7pad pt)))).data
    pkcs7unpad (aesCbcDecryptBytes key iv bs) : Option (List Nat)) = some pt
  rw [show (String.mk (b64Encode (aesCbcEncryptBytes key iv (pkcs7pad pt)))).data =
      b64Encode (aesCbcEncryptBytes key iv (pkcs7pad pt)) from rfl]
  rw [b64Decode_b64Encode _ hct]
  simp only [Option.bind_eq_bind, Option.some_bind]
  rw [aesCbc_roundtrip hkey hiv (pkcs7pad_valid hpt) (pkcs7pad_length_dvd pt)]
  exact pkcs7unpad_pkcs7pad pt

/-! ### Key derivation returns 16 bytes -/

theorem beBytes_length (k n : Nat) : (beBytes k n).length = k := by
  induction k generalizing n with
  | zero => rfl
  | succ j ih => simp [beBytes, ih]

theorem sha1_length (msg : List Nat) : (sha1 msg).length = 20 := by
  unfold sha1
  simp [beBytes_length]

theorem byteHexLower_length (b : Nat) : (byteHexLower b).length = 2 := rfl

theorem hexChars_length (bs : List Nat) : (hexChars bs).length = 2 * bs.length := by
  unfold hexChars
  induction bs with
  | nil => rfl
  | cons b rest ih =>
      simp only [List.flatMap_cons, List.length_append, byteHexLower_length, ih,
        List.length_cons]
      omega

theorem sha1hex_length (msg : List Nat) : (sha1hex msg).length = 40 := by
  unfold sha1hex
  rw [hexChars_length, sha1_length]

theorem hexDecode_length (l : List Char) : (hexDecode l).length = l.length / 2 := by
  induction l using hexDecode.induct with
  | case1 c1 c2 rest ih =>
      simp only [hexDecode, List.length_cons, ih]
      omega
  | case2 l h =>
      cases l with
      | nil => rfl
      | cons c t =>
          cases t with
          | nil => simp [hexDecode]
          | cons c2 t2 => exact absurd rfl (h c c2 t2)

theorem generate_encryption_key_length (password : String) (salt : Option String) :
    (generate_encryption_key password salt).length = 16 := by
  unfold generate_encryption_key
  rw [hexDecode_length, List.length_take, sha1hex_length]
  norm_num

/-! ## Claim C5: action validation -/

theorem scanMapElems_ok_of_all_good (l : List ActionEl) (h : l.all isGoodMap = true) :
    scanMapElems l = .ok () := by
  induction l with
  | nil => rfl
  | cons el rest ih =>
      simp only [List.all_cons, Bool.and_eq_true] at h
      cases el with
      | str s => simp [isGoodMap] at h
      | map m =>
          simp only [isGoodMap] at h
          simp only [scanMapElems, if_pos h.1]
          exact ih h.2

theorem scanMapElems_malformed (l : List ActionEl) (hmap : l.all isMapEl = true)
    (h : l.all isGoodMap = false) :
    scanMapElems l = .error (.malformed "Get actions malformed") := by
  induction l with
  | nil => simp at h
  | cons el rest ih =>
      simp only [List.all_cons, Bool.and_eq_true] at hmap
      cases el with
      | str s => simp [isMapEl] at hmap
      | map m =>
          simp only [List.all_cons, Bool.and_eq_false_iff] at h
          by_cases hg : (hasKey m "name" && hasKey m "url") = true
          · simp only [scanMapElems, if_pos hg]
            refine ih hmap.2 ?_
            rcases h with h | h
            · simp [isGoodMap, hg] at h
            · exact h
          · simp only [scanMapElems, if_neg hg]

theorem scanMapElems_firstOffender (l : List ActionEl) :
    scanMapElems l =
      (match l.dropWhile isGoodMap with
       | [] => .ok ()
       | .str _ :: _ => .error .attrError
       | .map _ :: _ => .error (.malformed "Get actions malformed")) := by
  induction l with
  | nil => rfl
  | cons el rest ih =>
      cases el with
      | str s =>
          rw [List.dropWhile_cons_of_neg (by simp [isGoodMap])]
          rfl
      | map m =>
          by_cases hg : (hasKey m "name" && hasKey m "url") = true
          · rw [List.dropWhile_cons_of_pos (by simp [isGoodMap, hg])]
            simp only [scanMapElems, if_pos hg]
            exact ih
          · rw [List.dropWhile_cons_of_neg (by simp [isGoodMap, hg])]
            simp only [scanMapElems, if_neg hg]

/-- Claim C5, counterexample: the list `[{"name":"n","url":"u"}, "a"]` has a
non-string first element and not every element is a mapping with both keys,
so the claim predicts a MalformedActions (ValueError) failure; the code
instead evaluates `"a".keys()` and dies with `AttributeError`. -/
theorem C5_counterexample :
    check_actions (.list [.map [("name", "n"), ("url", "u")], .str "a"]) =
      .error .attrError ∧
    isMalformedErr
      (check_actions (.list [.map [("name", "n"), ("url", "u")], .str "a"])) = false := by
  exact ⟨rfl, rfl⟩

/-- Claim C5 (amended): `_check_actions` accepts `None`, `[]`, lists of only
plain strings, and lists of mappings that all contain `name` and `url`; a
non-list non-`None` argument fails with `ValueError("Actions malformed")`; a
list whose first element is a string fails with
`ValueError("Feedback actions malformed")` unless all elements are strings;
a list whose first element is a mapping and all of whose elements are
mappings fails with `ValueError("Get actions malformed")` unless every
mapping has both keys; and in general a map-first list is accepted when no
element offends, and otherwise fails according to the first offending
element of the left-to-right scan (the first element that is not a mapping
with both keys): an AttributeError when that element is a plain string, and
`ValueError("Get actions malformed")` when it is a key-missing mapping. -/
theorem C5_check_actions_spec :
    check_actions .noneArg = .ok () ∧
    check_actions .notAList = .error (.malformed "Actions malformed") ∧
    check_actions (.list []) = .ok () ∧
    (∀ (s : String) (rest : List ActionEl),
      ((ActionEl.str s :: rest).all isStrEl = true →
        check_actions (.list (.str s :: rest)) = .ok ()) ∧
      ((ActionEl.str s :: rest).all isStrEl = false →
        check_actions (.list (.str s :: rest)) =
          .error (.malformed "Feedback actions malformed"))) ∧
    (∀ (m : List (String × String)) (rest : List ActionEl),
      ((ActionEl.map m :: rest).all isGoodMap = true →
        check_actions (.list (.map m :: rest)) = .ok ()) ∧
      ((ActionEl.map m :: rest).all isMapEl = true →
        (ActionEl.map m :: rest).all isGoodMap = false →
        check_actions (.list (.map m :: rest)) =
          .error (.malformed "Get actions malformed")) ∧
      (check_actions (.list (.map m :: rest)) =
        match (ActionEl.map m :: rest).dropWhile isGoodMap with
        | [] => .ok ()
        | .str _ :: _ => .error .attrError
        | .map _ :: _ => .error (.malformed "Get actions malformed"))) := by
  refine ⟨rfl, rfl, rfl, ?_, ?_⟩
  · intro s rest
    constructor
    · intro h
      simp only [check_actions, if_pos h]
    · intro h
      simp only [check_actions, h, Bool.false_eq_true, if_false]
  · intro m rest
    refine ⟨?_, ?_, ?_⟩
    · intro h
      simp only [check_actions]
      exact scanMapElems_ok_of_all_good _ h
    · intro hmap h
      simp only [check_actions]
      exact scanMapElems_malformed _ hmap h
    · simp only [check_actions]
      exact scanMapElems_firstOffender _

/-- Witness for C5: the amended theorem applied at concrete inputs. -/
theorem C5_check_actions_spec_witness :
    check_actions (.list [.str "a", .str "b"]) = .ok () ∧
    check_actions (.list [.str "a", .map []]) =
      .error (.malformed "Feedback actions malformed") ∧
    check_actions (.list [.map [("name", "n"), ("url", "u")]]) = .ok () ∧
    check_actions (.list [.map [("name", "n")]]) =
      .error (.malformed "Get actions malformed") ∧
    check_actions (.list [.map [("name", "n")], .str "a"]) =
      .error (.malformed "Get actions malformed") ∧
    check_actions
      (.list [.map [("name", "n"), ("url", "u")], .str "a", .map [("name", "n")]]) =
      .error .attrError :=
  ⟨(C5_check_actions_spec.2.2.2.1 "a" [.str "b"]).1 (by decide),
   (C5_check_actions_spec.2.2.2.1 "a" [.map []]).2 (by decide),
   (C5_check_actions_spec.2.2.2.2 [("name", "n"), ("url", "u")] []).1 (by decide),
   (C5_check_actions_spec.2.2.2.2 [("name", "n")] []).2.1 (by decide) (by decide),
   (C5_check_actions_spec.2.2.2.2 [("name", "n")] [.str "a"]).2.2,
   (C5_check_actions_spec.2.2.2.2 [("name", "n"), ("url", "u")]
     [.str "a", .map [("name", "n")]]).2.2⟩

/-! ## Claim C6: response envelope handling -/

/-- Claim C6, counterexample: an envelope with status `'BadRequest'` and no
`message` field is "another envelope whose status is not OK", so the claim
predicts UnknownError; the code evaluates `response.json()['message']`
(Python `and` short-circuit already passed the first conjunct) and dies
with `KeyError` instead. -/
theorem C6_counterexample :
    handle_response ⟨"BadRequest", none, none⟩ false = .error .keyError ∧
    isUnknownErr (handle_response ⟨"BadRequest", none, none⟩ false) = false := by
  exact ⟨rfl, rfl⟩

/-- Claim C6 (amended): the send operation fails with BadRequest when the
envelope's status is `'BadRequest'` and its message is
`'Title or message too long'`, and fails with UnknownError for every other
envelope whose status is not `'OK'` — except that an envelope with status
`'BadRequest'` and no `message` field fails with a KeyError (missing key)
rather than UnknownError. -/
theorem C6_handle_response_spec (env : Envelope) (cb : Bool) :
    (env.status = "BadRequest" → env.message = some "Title or message too long" →
      handle_response env cb = .error .badRequest) ∧
    (env.status = "BadRequest" → env.message = none →
      handle_response env cb = .error .keyError) ∧
    (env.status = "BadRequest" → ∀ m, env.message = some m →
      m ≠ "Title or message too long" → handle_response env cb = .error .unknownError) ∧
    (env.status ≠ "OK" → env.status ≠ "BadRequest" →
      handle_response env cb = .error .unknownError) := by
  refine ⟨?_, ?_, ?_, ?_⟩
  · intro hs hm
    simp [handle_response, hs, hm]
  · intro hs hm
    simp [handle_response, hs, hm]
  · intro hs m hm hne
    simp [handle_response, hs, hm, hne]
  · intro hok hbr
    simp [handle_response, hbr, hok]

/-- Witness for C6: the amended theorem applied at concrete envelopes. -/
theorem C6_handle_response_spec_witness :
    handle_response ⟨"BadRequest", some "Title or message too long", none⟩ false =
      .error .badRequest ∧
    handle_response ⟨"BadRequest", none, none⟩ true = .error .keyError ∧
    handle_response ⟨"BadRequest", some "other", none⟩ false = .error .unknownError ∧
    handle_response ⟨"Teapot", none, none⟩ false = .error .unknownError :=
  ⟨(C6_handle_response_spec ⟨"BadRequest", some "Title or message too long", none⟩ false).1
      rfl rfl,
   (C6_handle_response_spec ⟨"BadRequest", none, none⟩ true).2.1 rfl rfl,
   (C6_handle_response_spec ⟨"BadRequest", some "other", none⟩ false).2.2.1
      rfl "other" rfl (by decide),
   (C6_handle_response_spec ⟨"Teapot", none, none⟩ false).2.2.2 (by decide) (by decide)⟩

/-! ## Claim C7: the feedback callback scenario -/

/-- Claim C7: given the send response `{"status":"OK","feedbackId":"abc"}`
with a callback supplied, the response handler delegates to the feedback
poll for id `"abc"`; and a poll whose first response is
`{"success":true,"action_selected":"yes","action_selected_at":100,"action_delivered_at":90}`
invokes the callback exactly once, with arguments
`("yes", 100, 90, "abc")`, and terminates normally (resolved, no further
iterations or sleeps). -/
theorem C7_callback_once :
    handle_response ⟨"OK", none, some "abc"⟩ true = .ok (.poll "abc") ∧
    query_feedback_endpoint "abc" 60 0
      [(⟨true, true, some "yes", some 100, some 90⟩, 0)] =
      (.resolved, [⟨some "yes", some 100, some 90, "abc"⟩], []) := by
  exact ⟨rfl, rfl⟩

/-! ## Claim C8: feedback polling timeout -/

/-- Claim C8: with a truthy (non-zero) timeout, once a pending iteration's
wall-clock reading exceeds `start + timeout` while every earlier iteration
was pending and within the deadline, the poll fails with
FeedbackActionTimeout carrying the feedback identifier; with a falsy (zero)
timeout the poll can never produce a FeedbackActionTimeout at all. -/
theorem C8_timeout_spec :
    (∀ (id : String) (start n : Nat) (iters : List (FeedbackResp × Nat)) (msg : String),
      (pollLoop id 0 start n iters).1 ≠ .timedOut msg) ∧
    (∀ (id : String) (t start n : Nat) (pre : List (FeedbackResp × Nat))
        (resp : FeedbackResp) (now : Nat) (rest : List (FeedbackResp × Nat)),
      t ≠ 0 →
      (∀ pr ∈ pre, isPending pr.1 = true ∧ pr.2 ≤ start + t) →
      isPending resp = true → now > start + t →
      (pollLoop id t start n (pre ++ (resp, now) :: rest)).1 =
        .timedOut ("Feedback Action ID: " ++ id)) := by
  constructor
  · intro id start n iters msg
    induction iters with
    | nil => simp [pollLoop]
    | cons it rest ih =>
        obtain ⟨resp, now⟩ := it
        simp only [pollLoop]
        by_cases h1 : (resp.ok && resp.success) = true
        · rw [if_pos h1]
          by_cases h2 : pyTruthy resp.action_selected = true
          · rw [if_pos h2]; simp
          · rw [if_neg h2]
            simp only [bne_self_eq_false, Bool.false_and, Bool.false_eq_true, if_false]
            exact ih
        · rw [if_neg h1]; simp
  · intro id t start n pre resp now rest ht hpre hresp hnow
    induction pre with
    | nil =>
        simp only [List.nil_append, pollLoop]
        have h1 : (resp.ok && resp.success) = true := by
          simp only [isPending, Bool.and_eq_true] at hresp
          exact Bool.and_eq_true _ _ |>.mpr ⟨hresp.1.1, hresp.1.2⟩
        have h2 : pyTruthy resp.action_selected = false := by
          simp only [isPending, Bool.and_eq_true, Bool.not_eq_true'] at hresp
          exact hresp.2
        rw [if_pos h1, if_neg (by simp [h2])]
        rw [if_pos (by simp [ht]; omega)]
    | cons pr pre2 ih =>
        obtain ⟨r, tm⟩ := pr
        have hp := hpre (r, tm) (by simp)
        simp only [List.cons_append, pollLoop]
        have h1 : (r.ok && r.success) = true := by
          have := hp.1
          simp only [isPending, Bool.and_eq_true] at this
          exact Bool.and_eq_true _ _ |>.mpr ⟨this.1.1, this.1.2⟩
        have h2 : pyTruthy r.action_selected = false := by
          have := hp.1
          simp only [isPending, Bool.and_eq_true, Bool.not_eq_true'] at this
          exact this.2
        rw [if_pos h1, if_neg (by simp [h2])]
        have h3 : (t != 0 && decide (tm > start + t)) = false := by
          have := hp.2
          simp only [Bool.and_eq_false_iff, decide_eq_false_iff_not]
          right
          omega
        rw [if_neg (by simp [h3])]
        simp only []
        exact ih (fun pr hpr => hpre pr (by simp [hpr]))

/-- Witness for C8: both halves of the timeout theorem at concrete inputs. -/
theorem C8_timeout_spec_witness :
    (pollLoop "x" 0 0 0 [(⟨true, true, none, none, none⟩, 99)]).1 ≠
      .timedOut "Feedback Action ID: x" ∧
    (pollLoop "x" 3 0 0
      ([(⟨true, true, none, none, none⟩, 2)] ++
        (⟨true, true, none, none, none⟩, 10) :: [])).1 =
      .timedOut ("Feedback Action ID: " ++ "x") :=
  ⟨C8_timeout_spec.1 "x" 0 0 [(⟨true, true, none, none, none⟩, 99)] "Feedback Action ID: x",
   C8_timeout_spec.2 "x" 3 0 0 [(⟨true, true, none, none, none⟩, 2)]
     ⟨true, true, none, none, none⟩ 10 [] (by decide)
     (by intro pr hpr; simp at hpr; subst hpr; exact ⟨by decide, by decide⟩)
     (by decide) (by decide)⟩

/-! ## Claim C1: the retry schedule (code defect) -/

/-- Claim C1 (code defect): the source initialises `n = 0` and never
increments it, so every pending iteration sleeps 1 second forever; after 61
consecutive pending iterations every recorded sleep is still 1 second,
whereas the claim (and the code's own comments) require iteration 60
onwards to sleep 3 seconds. -/
theorem C1_sleep_schedule_never_advances :
    (query_feedback_endpoint "fid" 0 0
      (List.replicate 61 (⟨true, true, none, none, none⟩, 0))).2.2 =
      List.replicate 61 1 ∧
    (query_feedback_endpoint "fid" 0 0
      (List.replicate 61 (⟨true, true, none, none, none⟩, 0))).2.2.getD 60 0 = 1 := by
  exact ⟨rfl, rfl⟩

/-! ## Claim C2: key derivation -/

/-- Claim C2: key derivation is deterministic (it is a pure function of
`(password, salt)` — the embedding has no other inputs) and returns exactly
16 bytes, equal to the bytes decoded from the first 32 hex characters of
the SHA-1 hex digest of the UTF-8 encoding of the password concatenated
with the salt when a (Python-truthy, i.e. non-empty — see C10) salt is
given, or with the hardcoded fallback `SALT` constant otherwise. -/
theorem C2_derive_key_16_bytes (password : String) (salt : Option String) :
    (generate_encryption_key password salt).length = 16 ∧
    generate_encryption_key password salt =
      hexDecode ((sha1hex (utf8Encode
        (password ++ (match salt with
          | some s => if s = "" then SALT else s
          | none => SALT)))).take 32) := by
  refine ⟨generate_encryption_key_length password salt, ?_⟩
  unfold generate_encryption_key sha1hex
  cases salt with
  | none => simp [pyTruthy]
  | some s =>
      by_cases hs : s = ""
      · simp [pyTruthy, hs]
      · simp [pyTruthy, hs]

/-! ## Claim C10: falsy salts select the fallback -/

/-- Claim C10: the empty-string salt is Python-falsy, so it derives the same
16-byte key as passing no salt at all (both select the fallback `SALT`
constant), and only a truthy (non-empty) salt is actually concatenated with
the password. -/
theorem C10_falsy_salt_fallback (password : String) :
    generate_encryption_key password (some "") = generate_encryption_key password none ∧
    (generate_encryption_key password (some "")).length = 16 ∧
    (∀ s : String, s ≠ "" →
      generate_encryption_key password (some s) =
        hexDecode ((sha1hex (utf8Encode (password ++ s))).take 32)) := by
  refine ⟨?_, generate_encryption_key_length password (some ""), ?_⟩
  · unfold generate_encryption_key
    simp [pyTruthy]
  · intro s hs
    unfold generate_encryption_key sha1hex
    simp [pyTruthy, hs]

/-- Witness for C10 at a concrete password and salt. -/
theorem C10_falsy_salt_fallback_witness :
    generate_encryption_key "pw" (some "") = generate_encryption_key "pw" none ∧
    generate_encryption_key "pw" (some "b") =
      hexDecode ((sha1hex (utf8Encode ("pw" ++ "b"))).take 32) :=
  ⟨(C10_falsy_salt_fallback "pw").1,
   (C10_falsy_salt_fallback "pw").2.2 "b" (by decide)⟩

/-! ## Claim C3: encrypt-then-decrypt round trip -/

/-- Claim C3: for every 16-byte key, every 16-byte iv, and every plaintext
whose UTF-8 encoding has byte length 0, 1, 15, 16 or 17, decrypting the
output of `_encrypt` (URL-safe base64 decode, AES-128-CBC decrypt under the
same key and iv, then PKCS#7 unpad) recovers the plaintext bytes exactly.
(The proof does not need the length restriction: the round trip holds for
all lengths.) -/
theorem C3_encrypt_decrypt_roundtrip (key iv : List Nat) (data : String)
    (hkeyLen : key.length = 16) (hkey : ∀ b ∈ key, b < 256)
    (hivLen : iv.length = 16) (hiv : ∀ b ∈ iv, b < 256)
    (hlen : (utf8Encode data).length ∈ ([0, 1, 15, 16, 17] : List Nat)) :
    decryptPipeline key iv (encrypt key iv data) = some (utf8Encode data) := by
  unfold encrypt
  exact decryptPipeline_encryptBytes hkey hiv (utf8Encode_valid data)

/-- Witness for C3: a concrete key, iv and 1-byte plaintext. -/
theorem C3_encrypt_decrypt_roundtrip_witness :
    decryptPipeline [0, 1, 2, 3, 4, 5, 6, 7, 8, 9, 10, 11, 12, 13, 14, 15]
      [7, 23, 39, 55, 71, 87, 103, 119, 135, 151, 167, 183, 199, 215, 231, 247]
      (encrypt [0, 1, 2, 3, 4, 5, 6, 7, 8, 9, 10, 11, 12, 13, 14, 15]
        [7, 23, 39, 55, 71, 87, 103, 119, 135, 151, 167, 183, 199, 215, 231, 247] "a") =
      some (utf8Encode "a") :=
  C3_encrypt_decrypt_roundtrip
    [0, 1, 2, 3, 4, 5, 6, 7, 8, 9, 10, 11, 12, 13, 14, 15]
    [7, 23, 39, 55, 71, 87, 103, 119, 135, 151, 167, 183, 199, 215, 231, 247] "a"
    (by decide) (by decide) (by decide) (by decide) (by decide)

/-! ## Claim C4: the encrypted payload -/

/-- Claim C4: when a (truthy) password is supplied, the payload maps
`'encrypted'` to the string `"true"` and `'iv'` to the uppercase
32-hex-character encoding of the single 16-byte iv drawn once for the call;
`'msg'` (and `'title'`, when a non-empty title is given) hold ciphertext
produced by `_encrypt` under the same derived key and that same iv; and
`'event'`, when given, is attached unencrypted. -/
theorem C4_encrypted_payload (key : String) (title : Option String) (message : String)
    (event : Option String) (actions : Option (List ActionEl)) (password : Option String)
    (salt : Option String) (iv : List Nat)
    (hpw : pyTruthy password = true) (hivLen : iv.length = 16) :
    (generate_payload key title message event actions password salt iv).lookup "encrypted" =
      some (.s "true") ∧
    (generate_payload key title message event actions password salt iv).lookup "iv" =
      some (.s (String.mk ((hexChars iv).map Char.toUpper))) ∧
    (String.mk ((hexChars iv).map Char.toUpper)).length = 32 ∧
    (generate_payload key title message event actions password salt iv).lookup "msg" =
      some (.s (encrypt (generate_encryption_key (password.getD "") salt) iv message)) ∧
    (∀ t, title = some t → t ≠ "" →
      (generate_payload key title message event actions password salt iv).lookup "title" =
        some (.s (encrypt (generate_encryption_key (password.getD "") salt) iv t))) ∧
    (∀ e, event = some e → e ≠ "" →
      (generate_payload key title message event actions password salt iv).lookup "event" =
        some (.s e)) := by
  refine ⟨?_, ?_, ?_, ?_, ?_, ?_⟩
  · rcases actions with _ | l
    · by_cases hpt : pyTruthy title = true <;> by_cases hpe : pyTruthy event = true <;>
        simp [generate_payload, List.lookup, hpw, hpt, hpe]
    · by_cases hl : l.isEmpty <;> by_cases hpt : pyTruthy title = true <;>
        by_cases hpe : pyTruthy event = true <;>
        simp [generate_payload, List.lookup, hpw, hpt, hpe, hl]
  · rcases actions with _ | l
    · by_cases hpt : pyTruthy title = true <;> by_cases hpe : pyTruthy event = true <;>
        simp [generate_payload, List.lookup, hpw, hpt, hpe]
    · by_cases hl : l.isEmpty <;> by_cases hpt : pyTruthy title = true <;>
        by_cases hpe : pyTruthy event = true <;>
        simp [generate_payload, List.lookup, hpw, hpt, hpe, hl]
  · have e1 : (String.mk ((hexChars iv).map Char.toUpper)).length =
        ((hexChars iv).map Char.toUpper).length := rfl
    rw [e1, List.length_map, hexChars_length, hivLen]
  · rcases actions with _ | l
    · by_cases hpt : pyTruthy title = true <;> by_cases hpe : pyTruthy event = true <;>
        simp [generate_payload, List.lookup, hpw, hpt, hpe]
    · by_cases hl : l.isEmpty <;> by_cases hpt : pyTruthy title = true <;>
        by_cases hpe : pyTruthy event = true <;>
        simp [generate_payload, List.lookup, hpw, hpt, hpe, hl]
  · intro t ht hne
    subst ht
    have hpt : pyTruthy (some t) = true := by simp [pyTruthy, hne]
    rcases actions with _ | l
    · by_cases hpe : pyTruthy event = true <;>
        simp [generate_payload, List.lookup, hpw, hpt, hpe]
    · by_cases hl : l.isEmpty <;> by_cases hpe : pyTruthy event = true <;>
        simp [generate_payload, List.lookup, hpw, hpt, hpe, hl]
  · intro e he hne
    subst he
    have hpe : pyTruthy (some e) = true := by simp [pyTruthy, hne]
    rcases actions with _ | l
    · by_cases hpt : pyTruthy title = true <;>
        simp [generate_payload, List.lookup, hpw, hpt, hpe]
    · by_cases hl : l.isEmpty <;> by_cases hpt : pyTruthy title = true <;>
        simp [generate_payload, List.lookup, hpw, hpt, hpe, hl]

/-- Witness for C4 at concrete arguments. -/
theorem C4_encrypted_payload_witness :
    (generate_payload "k" (some "T") "m" (some "ev") none (some "pw") none
        [0, 1, 2, 3, 4, 5, 6, 7, 8, 9, 10, 11, 12, 13, 14, 15]).lookup "encrypted" =
      some (.s "true") ∧
    (generate_payload "k" (some "T") "m" (some "ev") none (some "pw") none
        [0, 1, 2, 3, 4, 5, 6, 7, 8, 9, 10, 11, 12, 13, 14, 15]).lookup "title" =
      some (.s (encrypt (generate_encryption_key ((some "pw").getD "") none)
        [0, 1, 2, 3, 4, 5, 6, 7, 8, 9, 10, 11, 12, 13, 14, 15] "T")) ∧
    (generate_payload "k" (some "T") "m" (some "ev") none (some "pw") none
        [0, 1, 2, 3, 4, 5, 6, 7, 8, 9, 10, 11, 12, 13, 14, 15]).lookup "event" =
      some (.s "ev") :=
  ⟨(C4_encrypted_payload "k" (some "T") "m" (some "ev") none (some "pw") none
      [0, 1, 2, 3, 4, 5, 6, 7, 8, 9, 10, 11, 12, 13, 14, 15]
      (by decide) (by decide)).1,
   (C4_encrypted_payload "k" (some "T") "m" (some "ev") none (some "pw") none
      [0, 1, 2, 3, 4, 5, 6, 7, 8, 9, 10, 11, 12, 13, 14, 15]
      (by decide) (by decide)).2.2.2.2.1 "T" rfl (by decide),
   (C4_encrypted_payload "k" (some "T") "m" (some "ev") none (some "pw") none
      [0, 1, 2, 3, 4, 5, 6, 7, 8, 9, 10, 11, 12, 13, 14, 15]
      (by decide) (by decide)).2.2.2.2.2 "ev" rfl (by decide)⟩

/-! ## Claim C9: actions in the payload -/

/-- Claim C9, counterexample: the empty actions list passes validation and
is present (`actions = some []`), yet `if actions:` is false for an empty
Python list, so the payload carries no `'actions'` key at all. -/
theorem C9_counterexample :
    (generate_payload "k" none "m" none (some []) none none []).lookup "actions" = none ∧
    check_actions (.list []) = .ok () := by
  exact ⟨rfl, rfl⟩

/-- Claim C9 (amended): for every request whose actions argument passes
validation and is a non-empty (Python-truthy) list, the payload contains
`'actions'` mapped to that list unchanged; an empty list, though valid and
present, is omitted. -/
theorem C9_actions_attached (key : String) (title : Option String) (message : String)
    (event : Option String) (l : List ActionEl) (password salt : Option String)
    (iv : List Nat) (hval : check_actions (.list l) = .ok ()) (hne : l.isEmpty = false) :
    (generate_payload key title message event (some l) password salt iv).lookup "actions" =
      some (.acts l) := by
  by_cases hpw : pyTruthy password = true <;> by_cases hpt : pyTruthy title = true <;>
    by_cases hpe : pyTruthy event = true <;>
    simp [generate_payload, List.lookup, hpw, hpt, hpe, hne]

/-- Witness for C9 at concrete arguments. -/
theorem C9_actions_attached_witness :
    (generate_payload "k" none "m" none (some [.str "a"]) none none []).lookup "actions" =
      some (.acts [.str "a"]) :=
  C9_actions_attached "k" none "m" none [.str "a"] none none [] rfl (by decide)

end Simplepush
